import Mathlib

/-!
Verification development for the tbex chain-data resolution engine
(`src/rpc/mod.rs`, `src/rpc/helper.rs`, `src/rpc/types.rs`).

The Rust code is shallowly embedded:
* machine integers (`u8`, `u64`, `u128`, `U256`) become `Nat` with explicit
  `% 2 ^ w` where overflow can occur;
* byte slices (`Bytes`, `B256`, `Address`) become `List Nat` of byte values;
* fallible Rust code (`Result<T>`) becomes `Except String T`, an `anyhow`
  error being modelled by its rendered (`{:#}`) message string;
* network calls are abstracted as oracle functions passed in explicitly, an
  oracle taking the attempt number so that retry behaviour is observable;
* `keccak256` is implemented in full (Keccak-f[1600], original 0x01 padding)
  so that hash constants are computed, not postulated.
-/

/-! ## Byte and string helpers -/

/-- Big-endian interpretation of a byte list, models `U256::from_be_slice`. -/
def beBytesToNat (bs : List Nat) : Nat :=
  bs.foldl (fun acc b => acc * 256 + b) 0

/-- Lowercase hex digit for a value `0..15`. -/
def hexDigitChar (n : Nat) : Char :=
  if n < 10 then Char.ofNat (48 + n) else Char.ofNat (87 + n)

/-- Two lowercase hex digits of one byte, models Rust `format!("{b:02x}")`. -/
def byteToHexChars (b : Nat) : List Char :=
  [hexDigitChar (b / 16 % 16), hexDigitChar (b % 16)]

/-- Models `helper.rs::hex_encode`: each byte rendered as two lowercase hex
digits, concatenated. -/
def hex_encode (bytes : List Nat) : String :=
  String.mk (bytes.map byteToHexChars).flatten

/-- Little-endian decimal digits of `n` (empty for 0); `fuel`-bounded so the
definition is structural and kernel-reducible. -/
def decDigitsAux : Nat → Nat → List Nat
  | 0, _ => []
  | fuel + 1, n => if n = 0 then [] else n % 10 :: decDigitsAux fuel (n / 10)

/-- Decimal digits of `n`, most significant first (empty for 0). -/
def decDigits (n : Nat) : List Nat := (decDigitsAux n n).reverse

/-- Decimal digit value `0..9` as a character. -/
def decDigitChar (d : Nat) : Char := Char.ofNat (48 + d)

/-- Models Rust decimal `Display` of an unsigned integer. -/
def natToString (n : Nat) : String :=
  if n = 0 then "0" else String.mk ((decDigits n).map decDigitChar)

/-- ASCII-only lowercasing, models `str::to_lowercase` on the ASCII range
(the Rust function is Unicode-aware, but every substring the code matches
against is pure ASCII, where the two agree). -/
def toLowerStr (s : String) : String := String.mk (s.toList.map Char.toLower)

/-- Does `needle` occur as a contiguous run inside the second list? -/
def containsSubAux (needle : List Char) : List Char → Bool
  | [] => needle.isEmpty
  | c :: rest => needle.isPrefixOf (c :: rest) || containsSubAux needle rest

/-- Models Rust `str::contains(substring)` at the character level. -/
def strContainsSub (s sub : String) : Bool :=
  containsSubAux sub.toList s.toList

/-- UTF-8 encoding of one scalar value, models Rust `str::as_bytes` per char. -/
def utf8EncodeChar (c : Nat) : List Nat :=
  if c < 0x80 then [c]
  else if c < 0x800 then
    [0xC0 ||| (c >>> 6), 0x80 ||| (c &&& 0x3F)]
  else if c < 0x10000 then
    [0xE0 ||| (c >>> 12), 0x80 ||| ((c >>> 6) &&& 0x3F), 0x80 ||| (c &&& 0x3F)]
  else
    [0xF0 ||| (c >>> 18), 0x80 ||| ((c >>> 12) &&& 0x3F),
     0x80 ||| ((c >>> 6) &&& 0x3F), 0x80 ||| (c &&& 0x3F)]

/-- UTF-8 bytes of a string, models Rust `str::as_bytes`. -/
def strBytes (s : String) : List Nat :=
  (s.toList.map (fun c => utf8EncodeChar c.toNat)).flatten

/-- Is `b` a UTF-8 continuation byte `0x80..0xBF`? -/
def isContByte (b : Nat) : Bool := 0x80 ≤ b && b < 0xC0

/-- Strict UTF-8 decoding, models `String::from_utf8` (`none` = `Err`).
Rejects overlong encodings, surrogates and values above U+10FFFF. -/
def utf8Decode : List Nat → Option (List Char)
  | [] => some []
  | b :: rest =>
    if b < 0x80 then (utf8Decode rest).map (fun cs => Char.ofNat b :: cs)
    else if b < 0xC2 then none
    else if b < 0xE0 then
      match rest with
      | b1 :: rest1 =>
        if isContByte b1 then
          (utf8Decode rest1).map (fun cs =>
            Char.ofNat ((b - 0xC0) * 64 + (b1 - 0x80)) :: cs)
        else none
      | _ => none
    else if b < 0xF0 then
      match rest with
      | b1 :: b2 :: rest2 =>
        if isContByte b1 && isContByte b2
            && (b ≠ 0xE0 || 0xA0 ≤ b1) && (b ≠ 0xED || b1 < 0xA0) then
          (utf8Decode rest2).map (fun cs =>
            Char.ofNat ((b - 0xE0) * 4096 + (b1 - 0x80) * 64 + (b2 - 0x80)) :: cs)
        else none
      | _ => none
    else if b < 0xF5 then
      match rest with
      | b1 :: b2 :: b3 :: rest3 =>
        if isContByte b1 && isContByte b2 && isContByte b3
            && (b ≠ 0xF0 || 0x90 ≤ b1) && (b ≠ 0xF4 || b1 < 0x90) then
          (utf8Decode rest3).map (fun cs =>
            Char.ofNat ((b - 0xF0) * 262144 + (b1 - 0x80) * 4096
              + (b2 - 0x80) * 64 + (b3 - 0x80)) :: cs)
        else none
      | _ => none
    else none

/-! ## Keccak-256 (as used by `alloy::primitives::keccak256`) -/

/-- 64-bit left rotation. -/
def rotl64 (x k : Nat) : Nat :=
  let k := k % 64
  ((x <<< k) % 2 ^ 64) ||| (x >>> (64 - k))

/-- Keccak round constants (decimal). -/
def keccakRC : List Nat :=
  [1, 32898,
   9223372036854808714, 9223372039002292224,
   32907, 2147483649,
   9223372039002292353, 9223372036854808585,
   138, 136,
   2147516425, 2147483658,
   2147516555, 9223372036854775947,
   9223372036854808713, 9223372036854808579,
   9223372036854808578, 9223372036854775936,
   32778, 9223372039002259466,
   9223372039002292353, 9223372036854808704,
   2147483649, 9223372039002292232]

/-- Rho rotation offsets as the five rows `y = 0..4`, each row listing
`x = 0..4`. -/
def keccakRhoRows : List (List Nat) :=
  [[0, 1, 62, 28, 27],
   [36, 44, 6, 55, 20],
   [3, 10, 43, 25, 39],
   [41, 45, 15, 21, 8],
   [18, 2, 61, 56, 14]]

/-- Rho rotation offsets, flat index `x + 5*y`. -/
def keccakRho : List Nat := keccakRhoRows.flatten

/-- Lane `(x, y)` of a 25-lane state. -/
def lane (s : List Nat) (x y : Nat) : Nat := s.getD (x % 5 + 5 * (y % 5)) 0

def keccakTheta (s : List Nat) : List Nat :=
  let C := fun x => lane s x 0 ^^^ lane s x 1 ^^^ lane s x 2 ^^^ lane s x 3 ^^^ lane s x 4
  let D := fun x => C ((x + 4) % 5) ^^^ rotl64 (C ((x + 1) % 5)) 1
  (List.range 25).map (fun j => s.getD j 0 ^^^ D (j % 5))

def keccakRhoPi (s : List Nat) : List Nat :=
  (List.range 25).map (fun j =>
    let X := j % 5
    let Y := j / 5
    let x := 3 * (Y + 2 * X) % 5
    let y := X
    rotl64 (lane s x y) (keccakRho.getD (x + 5 * y) 0))

def keccakChi (s : List Nat) : List Nat :=
  (List.range 25).map (fun j =>
    let x := j % 5
    let y := j / 5
    lane s x y ^^^ (((2 ^ 64 - 1) ^^^ lane s (x + 1) y) &&& lane s (x + 2) y))

def keccakRound (s : List Nat) (r : Nat) : List Nat :=
  let s := keccakChi (keccakRhoPi (keccakTheta s))
  s.set 0 (s.getD 0 0 ^^^ keccakRC.getD r 0)

def keccakF (s : List Nat) : List Nat :=
  (List.range 24).foldl keccakRound s

/-- Little-endian 64-bit lane from (up to) 8 bytes. -/
def laneOfBytes (bs : List Nat) : Nat :=
  (bs.take 8).foldr (fun b acc => b + 256 * acc) 0

/-- Absorb one 136-byte (rate) block into the state. -/
def absorbBlock (s : List Nat) (block : List Nat) : List Nat :=
  keccakF ((List.range 25).map (fun i =>
    s.getD i 0 ^^^ (if i < 17 then laneOfBytes (block.drop (8 * i)) else 0)))

/-- Split into chunks of 136 bytes (`fuel`-bounded structural recursion). -/
def chunks136 : Nat → List Nat → List (List Nat)
  | 0, _ => []
  | _, [] => []
  | fuel + 1, l => l.take 136 :: chunks136 fuel (l.drop 136)

/-- Keccak multi-rate padding with suffix bit `0x01` (original Keccak, as
Ethereum uses — not the SHA-3 `0x06` variant). -/
def keccakPad (msg : List Nat) : List Nat :=
  let padLen := 136 - msg.length % 136
  if padLen = 1 then msg ++ [0x81]
  else msg ++ [0x01] ++ List.replicate (padLen - 2) 0 ++ [0x80]

/-- Eight little-endian bytes of a 64-bit lane. -/
def laneToBytes (n : Nat) : List Nat :=
  (List.range 8).map (fun k => n >>> (8 * k) % 256)

/-- Keccak-256 of a byte list: 32-byte digest. -/
def keccak256 (msg : List Nat) : List Nat :=
  let padded := keccakPad msg
  let final := (chunks136 (padded.length + 1) padded).foldl absorbBlock
    (List.replicate 25 0)
  ((List.range 4).map (fun i => laneToBytes (final.getD i 0))).flatten

/-- Keccak-256 of a string's UTF-8 bytes, models `keccak256(s.as_bytes())`. -/
def keccakStr (s : String) : List Nat := keccak256 (strBytes s)

/-! ## RetryExecutor (`RpcClient::with_retry`, src/rpc/mod.rs lines 74-128)

The closure passed to `with_retry` is modelled as an oracle
`op : Nat → Except String α` giving the outcome of the attempt with that
index; `tokio::time::sleep(delay)` is modelled by recording the delay (in
milliseconds) in an observable trace. -/

/-- Default `max_retries` set in `RpcClient::new` (src/rpc/mod.rs line 69). -/
def defaultMaxRetries : Nat := 5

/-- Default `base_delay` in milliseconds set in `RpcClient::new`
(src/rpc/mod.rs line 70). -/
def defaultBaseDelayMs : Nat := 500

/-- The transient-error substrings of src/rpc/mod.rs lines 92-103. -/
def retrySubstrings : List String :=
  ["rate", "limit", "429", "too many", "timeout", "timed out",
   "connection", "temporarily", "unavailable", "502", "503", "504"]

/-- Models the `is_retryable` classification: the rendered error message,
lowercased, contains one of the listed substrings. -/
def isRetryable (msg : String) : Bool :=
  retrySubstrings.any (fun sub => strContainsSub (toLowerStr msg) sub)

/-- Observable outcome of one `with_retry` call: the returned value or error,
the sequence of sleeps performed (ms), and how many times the operation ran. -/
structure RetryResult (α : Type) where
  result : Except String α
  sleeps : List Nat
  attempts : Nat
  deriving Repr

/-- One line of the `all_errors` log: `format!("Attempt {}: {}", attempt + 1, e)`. -/
def attemptLine (attempt : Nat) (msg : String) : String :=
  "Attempt " ++ natToString (attempt + 1) ++ ": " ++ msg

/-- The non-continuing exit of the loop body (src/rpc/mod.rs lines 108-118):
return the aggregated error when more than one attempt was logged, else the
error alone. -/
def retryTerminal {α : Type} (attempt : Nat) (allErrors : List String)
    (e : String) (sleeps : List Nat) : RetryResult α :=
  { result := .error (if allErrors.length > 1 then
        e ++ "\n\nAll attempts:\n" ++ String.intercalate "\n" allErrors
      else e),
    sleeps := sleeps,
    attempts := attempt + 1 }

/-- The loop `for attempt in 0..=max_retries` of `with_retry`, unrolled as
structural recursion on `remaining = max_retries - attempt`; the guard
`attempt < max_retries` of line 105 is exactly `remaining > 0`.  The
post-loop `Err` of lines 123-127 is unreachable (the iteration with
`attempt = max_retries` always returns) and so has no counterpart here. -/
def withRetryGo {α : Type} (baseDelay : Nat) (op : Nat → Except String α) :
    Nat → Nat → List String → List Nat → RetryResult α
  | 0, attempt, allErrors, sleeps =>
    match op attempt with
    | .ok v => { result := .ok v, sleeps := sleeps, attempts := attempt + 1 }
    | .error e =>
      retryTerminal attempt (allErrors ++ [attemptLine attempt e]) e sleeps
  | r + 1, attempt, allErrors, sleeps =>
    match op attempt with
    | .ok v => { result := .ok v, sleeps := sleeps, attempts := attempt + 1 }
    | .error e =>
      if isRetryable e then
        withRetryGo baseDelay op r (attempt + 1)
          (allErrors ++ [attemptLine attempt e])
          (sleeps ++ [baseDelay * 2 ^ attempt])
      else retryTerminal attempt (allErrors ++ [attemptLine attempt e]) e sleeps

/-- Models `RpcClient::with_retry` with the client's `max_retries` and
`base_delay` made explicit. -/
def withRetry {α : Type} (maxRetries baseDelay : Nat)
    (op : Nat → Except String α) : RetryResult α :=
  withRetryGo baseDelay op maxRetries 0 [] []

/-! ## namehash (`helper.rs::namehash`, src/rpc/helper.rs lines 9-27) -/

/-- Split a character list on `.` — models Rust `str::split('.')` (empty
labels are kept, the empty input gives one empty label). -/
def splitLabels : List Char → List (List Char)
  | [] => [[]]
  | c :: rest =>
    match splitLabels rest with
    | [] => [[c]]
    | l :: ls => if c = '.' then [] :: l :: ls else (c :: l) :: ls

/-- The all-zero 256-bit node, `B256::ZERO`, as 32 zero bytes. -/
def zeroNode : List Nat := List.replicate 32 0

/-- Models `helper.rs::namehash`: empty name gives the zero node, otherwise
iterate the labels right-to-left (Rust `rsplit('.')`), each step hashing
the 64-byte concatenation `node ++ keccak256(label)`. -/
def namehash (name : String) : List Nat :=
  if name = "" then zeroNode
  else
    ((splitLabels name.toList).reverse).foldl
      (fun node label =>
        keccak256 (node ++ keccak256 ((label.map (fun c => utf8EncodeChar c.toNat)).flatten)))
      zeroNode

/-- Hex string (without `0x`) to bytes, for stating digest constants. -/
def hexVal (c : Char) : Nat :=
  if c.toNat ≥ 97 then c.toNat - 87
  else if c.toNat ≥ 65 then c.toNat - 55
  else c.toNat - 48

/-- Pairs of hex digits to bytes. -/
def hexToBytes : List Char → List Nat
  | c1 :: c2 :: rest => (hexVal c1 * 16 + hexVal c2) :: hexToBytes rest
  | _ => []

/-- Bytes of a hex constant given as a string without `0x`. -/
def hexBytes (s : String) : List Nat := hexToBytes s.toList

/-! ## Theorems about the RetryExecutor -/

/-- Loop invariant of `withRetryGo`: starting from a sleep trace matching the
exponential schedule, every outcome has between `attempt + 1` and
`attempt + remaining + 1` total attempts and a sleep trace that is exactly
`base_delay * 2 ^ i` for `i` below `attempts - 1`. -/
theorem withRetryGo_inv {α : Type} (baseDelay : Nat) (op : Nat → Except String α) :
    ∀ (remaining attempt : Nat) (errs : List String) (sleeps : List Nat),
      sleeps = (List.range attempt).map (fun i => baseDelay * 2 ^ i) →
      attempt + 1 ≤ (withRetryGo baseDelay op remaining attempt errs sleeps).attempts ∧
      (withRetryGo baseDelay op remaining attempt errs sleeps).attempts
        ≤ attempt + remaining + 1 ∧
      (withRetryGo baseDelay op remaining attempt errs sleeps).sleeps =
        (List.range ((withRetryGo baseDelay op remaining attempt errs sleeps).attempts
          - 1)).map (fun i => baseDelay * 2 ^ i) := by
  intro remaining
  induction remaining with
  | zero =>
    intro attempt errs sleeps hs
    cases h : op attempt with
    | ok v => simp [withRetryGo, h, hs]
    | error e => simp [withRetryGo, h, retryTerminal, hs]
  | succ r ih =>
    intro attempt errs sleeps hs
    cases h : op attempt with
    | ok v => simp [withRetryGo, h, hs]
    | error e =>
      cases hb : isRetryable e with
      | false => simp [withRetryGo, h, hb, retryTerminal, hs]
      | true =>
        have hstep :
            sleeps ++ [baseDelay * 2 ^ attempt] =
            (List.range (attempt + 1)).map (fun i => baseDelay * 2 ^ i) := by
          rw [hs, List.range_succ, List.map_append]
          rfl
        have hgo :
            withRetryGo baseDelay op (r + 1) attempt errs sleeps =
            withRetryGo baseDelay op r (attempt + 1)
              (errs ++ [attemptLine attempt e])
              (sleeps ++ [baseDelay * 2 ^ attempt]) := by
          simp [withRetryGo, h, hb]
        rw [hgo]
        obtain ⟨h1, h2, h3⟩ := ih (attempt + 1) (errs ++ [attemptLine attempt e])
          (sleeps ++ [baseDelay * 2 ^ attempt]) hstep
        exact ⟨by omega, by omega, h3⟩

/-- If every attempt up to `max_retries` fails with a retryable error, the
run ends with the aggregated error whose log lists every attempt's message
in order with 1-based attempt indices. -/
theorem withRetryGo_exhaust {α : Type} (baseDelay maxRetries : Nat)
    (op : Nat → Except String α) (es : Nat → String)
    (hall : ∀ i, i ≤ maxRetries → op i = .error (es i) ∧ isRetryable (es i) = true)
    (hmr : 1 ≤ maxRetries) :
    ∀ (remaining attempt : Nat) (sleeps : List Nat),
      attempt + remaining = maxRetries →
      (withRetryGo baseDelay op remaining attempt
        ((List.range attempt).map (fun i => attemptLine i (es i))) sleeps).result =
      .error (es maxRetries ++ "\n\nAll attempts:\n" ++
        String.intercalate "\n"
          ((List.range (maxRetries + 1)).map (fun i => attemptLine i (es i)))) := by
  intro remaining
  induction remaining with
  | zero =>
    intro attempt sleeps hsum
    have hatt : attempt = maxRetries := by omega
    subst hatt
    obtain ⟨hop, hret⟩ := hall attempt le_rfl
    have hlog :
        (List.range attempt).map (fun i => attemptLine i (es i))
          ++ [attemptLine attempt (es attempt)] =
        (List.range (attempt + 1)).map (fun i => attemptLine i (es i)) := by
      rw [List.range_succ, List.map_append]
      rfl
    have hlen : ((List.range (attempt + 1)).map
        (fun i => attemptLine i (es i))).length > 1 := by
      simp only [List.length_map, List.length_range]
      omega
    simp only [withRetryGo, hop, retryTerminal, hlog]
    rw [if_pos hlen]
  | succ r ih =>
    intro attempt sleeps hsum
    obtain ⟨hop, hret⟩ := hall attempt (by omega)
    have hlog :
        (List.range attempt).map (fun i => attemptLine i (es i))
          ++ [attemptLine attempt (es attempt)] =
        (List.range (attempt + 1)).map (fun i => attemptLine i (es i)) := by
      rw [List.range_succ, List.map_append]
      rfl
    have hgo :
        withRetryGo baseDelay op (r + 1) attempt
          ((List.range attempt).map (fun i => attemptLine i (es i))) sleeps =
        withRetryGo baseDelay op r (attempt + 1)
          ((List.range (attempt + 1)).map (fun i => attemptLine i (es i)))
          (sleeps ++ [baseDelay * 2 ^ attempt]) := by
      simp [withRetryGo, hop, hret, hlog]
    rw [hgo]
    exact ih (attempt + 1) (sleeps ++ [baseDelay * 2 ^ attempt]) (by omega)

/-- Claim C1: every operation run through `with_retry` is executed between 1
and `max_retries + 1` times (the client defaults being `max_retries = 5`,
`base_delay = 500` ms); the recorded delays are exactly
`base_delay * 2 ^ attempt` in attempt order; an error counts as retryable
iff its rendered message, lowercased, contains one of the listed
substrings; a non-retryable first error returns immediately with no sleep;
every call yields exactly one success or one failure; and when every
attempt fails retryably the final error aggregates every attempt's message
in order, each with its incrementing 1-based index. -/
theorem retry_executor_contract {α : Type} (maxRetries baseDelay : Nat)
    (op : Nat → Except String α) :
    (defaultMaxRetries = 5 ∧ defaultBaseDelayMs = 500) ∧
    (1 ≤ (withRetry maxRetries baseDelay op).attempts ∧
      (withRetry maxRetries baseDelay op).attempts ≤ maxRetries + 1) ∧
    ((withRetry maxRetries baseDelay op).sleeps =
      (List.range ((withRetry maxRetries baseDelay op).attempts - 1)).map
        (fun i => baseDelay * 2 ^ i)) ∧
    (∀ msg, isRetryable msg = true ↔
      ∃ sub ∈ retrySubstrings, strContainsSub (toLowerStr msg) sub = true) ∧
    (∀ e, op 0 = .error e → isRetryable e = false →
      (withRetry maxRetries baseDelay op).result = .error e ∧
      (withRetry maxRetries baseDelay op).sleeps = [] ∧
      (withRetry maxRetries baseDelay op).attempts = 1) ∧
    ((∃ v, (withRetry maxRetries baseDelay op).result = .ok v) ∨
      (∃ m, (withRetry maxRetries baseDelay op).result = .error m)) ∧
    (∀ es : Nat → String, 1 ≤ maxRetries →
      (∀ i, i ≤ maxRetries → op i = .error (es i) ∧ isRetryable (es i) = true) →
      (withRetry maxRetries baseDelay op).result =
        .error (es maxRetries ++ "\n\nAll attempts:\n" ++
          String.intercalate "\n"
            ((List.range (maxRetries + 1)).map (fun i => attemptLine i (es i))))) := by
  have hdef : withRetry maxRetries baseDelay op
      = withRetryGo baseDelay op maxRetries 0 [] [] := rfl
  have hinv := withRetryGo_inv baseDelay op maxRetries 0 [] [] (by simp)
  refine ⟨⟨rfl, rfl⟩, ⟨?_, ?_⟩, ?_, ?_, ?_, ?_, ?_⟩
  · rw [hdef]
    exact hinv.1
  · rw [hdef]
    have := hinv.2.1
    omega
  · rw [hdef]
    exact hinv.2.2
  · intro msg
    exact List.any_eq_true
  · intro e h0 hret
    rw [hdef]
    cases maxRetries <;>
      simp [withRetryGo, h0, hret, retryTerminal, attemptLine]
  · cases h : (withRetry maxRetries baseDelay op).result with
    | ok v => exact Or.inl ⟨v, rfl⟩
    | error m => exact Or.inr ⟨m, rfl⟩
  · intro es hmr hall
    rw [hdef]
    have := withRetryGo_exhaust baseDelay maxRetries op es hall hmr maxRetries 0 [] (by omega)
    simpa using this

/-- Concrete retry scenario from the spec: fails twice with a rate-limit
message, then succeeds. -/
def opRateLimited : Nat → Except String Nat :=
  fun i => if i < 2 then .error "rate limited" else .ok 42

/-- Concrete non-retryable scenario from the spec. -/
def opInvalidArg : Nat → Except String Nat :=
  fun _ => .error "invalid argument"

/-- Witness for C1: the rate-limited operation succeeds on the third attempt
after delays of exactly 500 ms and 1000 ms; the non-retryable operation
fails at once with no sleep. -/
theorem retry_executor_contract_witness :
    (withRetry 5 500 opRateLimited).attempts ≤ 6 ∧
    (withRetry 5 500 opRateLimited).result = .ok 42 ∧
    (withRetry 5 500 opRateLimited).sleeps = [500, 1000] ∧
    (withRetry 5 500 opInvalidArg).result = .error "invalid argument" ∧
    (withRetry 5 500 opInvalidArg).sleeps = [] := by
  refine ⟨(retry_executor_contract 5 500 opRateLimited).2.1.2, rfl, rfl, ?_, ?_⟩
  · exact ((retry_executor_contract 5 500 opInvalidArg).2.2.2.2.1
      "invalid argument" rfl (by decide)).1
  · exact ((retry_executor_contract 5 500 opInvalidArg).2.2.2.2.1
      "invalid argument" rfl (by decide)).2.1

/-! ## Theorems about namehash -/

set_option maxRecDepth 40000 in
/-- Claim C2: `namehash` splits on `.`, iterates labels right-to-left with
`node = keccak256(node ++ keccak256(label))` from the all-zero node; the
empty name gives the all-zero 256-bit value, and `namehash("eth")` and
`namehash("vitalik.eth")` equal the published constants. -/
theorem namehash_spec :
    (∀ name : String, name ≠ "" →
      namehash name = (splitLabels name.toList).reverse.foldl
        (fun node label =>
          keccak256 (node ++ keccak256
            ((label.map (fun c => utf8EncodeChar c.toNat)).flatten)))
        zeroNode) ∧
    namehash "" = List.replicate 32 0 ∧
    namehash "eth" =
      hexBytes "93cdeb708b7545dc668eb9280176169d1c33cfd8ed6f04690a0bcc88a93fc4ae" ∧
    namehash "vitalik.eth" =
      hexBytes "ee6c4522aab0003e8d14cd40a6af439055fd2577951148c14b6cea9a53475835" := by
  refine ⟨?_, rfl, by decide, by decide⟩
  intro name h
  unfold namehash
  rw [if_neg h]

/-- Witness for C2 at the concrete name `"eth"`. -/
theorem namehash_spec_witness :
    namehash "eth" = (splitLabels "eth".toList).reverse.foldl
      (fun node label =>
        keccak256 (node ++ keccak256
          ((label.map (fun c => utf8EncodeChar c.toNat)).flatten)))
      zeroNode :=
  namehash_spec.1 "eth" (by decide)

/-! ## ENS forward resolution (`RpcClient::resolve_ens_to_address`,
src/rpc/mod.rs lines 673-719)

The two contract calls are modelled as attempt-indexed oracles (addresses
as `Nat`, the node as its 32 bytes); ABI decode failures are folded into
the oracle's error value.  The source calls `self.provider.call(..)`
directly at both steps, which corresponds to consulting the oracle at
attempt index 0 only. -/

structure EnsEnv where
  /-- Outcome of the `ENSRegistry.resolver(node)` call on a given attempt. -/
  registryResolver : List Nat → Nat → Except String Nat
  /-- Outcome of the `ENSResolver.addr(node)` call on the resolver contract
  with the given address, on a given attempt. -/
  resolverAddr : Nat → List Nat → Nat → Except String Nat

/-- Models `resolve_ens_to_address`: registry lookup, zero-address check,
resolver lookup, zero-address check.  Both provider calls are direct
(attempt 0); `with_retry` is not involved in the source. -/
def resolve_ens_to_address (env : EnsEnv) (name : String) : Except String Nat :=
  let node := namehash name
  match env.registryResolver node 0 with
  | .error e => .error ("Failed to query ENS registry: " ++ e)
  | .ok resolver_addr =>
    if resolver_addr = 0 then
      .error ("No resolver found for ENS name: " ++ name)
    else
      match env.resolverAddr resolver_addr node 0 with
      | .error e => .error ("Failed to query ENS resolver: " ++ e)
      | .ok resolved =>
        if resolved = 0 then
          .error ("ENS name " ++ name ++ " does not resolve to an address")
        else .ok resolved

/-- The claim's wording of forward resolution — each step a single contract
call *executed through the RetryExecutor* (with the client defaults).
Stated only for comparison with `resolve_ens_to_address`; it is not what
the source does. -/
def resolve_ens_to_address_claimRetry (env : EnsEnv) (name : String) :
    Except String Nat :=
  let node := namehash name
  match (withRetry defaultMaxRetries defaultBaseDelayMs
      (env.registryResolver node)).result with
  | .error e => .error ("Failed to query ENS registry: " ++ e)
  | .ok resolver_addr =>
    if resolver_addr = 0 then
      .error ("No resolver found for ENS name: " ++ name)
    else
      match (withRetry defaultMaxRetries defaultBaseDelayMs
          (env.resolverAddr resolver_addr node)).result with
      | .error e => .error ("Failed to query ENS resolver: " ++ e)
      | .ok resolved =>
        if resolved = 0 then
          .error ("ENS name " ++ name ++ " does not resolve to an address")
        else .ok resolved

/-- An environment whose registry call fails with a retryable rate-limit
message on attempt 0 and succeeds on every later attempt. -/
def ensEnvRateLimited : EnsEnv :=
  { registryResolver := fun _ attempt =>
      if attempt = 0 then .error "rate limited" else .ok 5,
    resolverAddr := fun _ _ _ => .ok 7 }

/-- Counterexample for C3 as stated: a single retryable transport failure
makes the source's forward resolution fail at once, whereas the claimed
retrying protocol would succeed — so the steps are not executed through
the RetryExecutor. -/
theorem resolve_ens_retry_counterexample :
    resolve_ens_to_address ensEnvRateLimited "vitalik.eth" =
      .error "Failed to query ENS registry: rate limited" ∧
    resolve_ens_to_address_claimRetry ensEnvRateLimited "vitalik.eth" = .ok 7 := by
  exact ⟨rfl, rfl⟩

/-- Claim C3 (amended): forward resolution is a two-call protocol in which
each step is a single *direct* contract call (attempt 0 only — not routed
through the RetryExecutor); a zero registry result fails with the
"no resolver" error naming the queried name, a zero resolver result fails
with the "does not resolve" error naming the queried name, a transport
failure at either step aborts with a descriptive error naming that step,
and a non-zero resolved address is returned as success. -/
theorem resolve_ens_two_step (env : EnsEnv) (name : String) :
    (∀ e, env.registryResolver (namehash name) 0 = .error e →
      resolve_ens_to_address env name =
        .error ("Failed to query ENS registry: " ++ e)) ∧
    (env.registryResolver (namehash name) 0 = .ok 0 →
      resolve_ens_to_address env name =
        .error ("No resolver found for ENS name: " ++ name)) ∧
    (∀ r e, env.registryResolver (namehash name) 0 = .ok r → r ≠ 0 →
      env.resolverAddr r (namehash name) 0 = .error e →
      resolve_ens_to_address env name =
        .error ("Failed to query ENS resolver: " ++ e)) ∧
    (∀ r, env.registryResolver (namehash name) 0 = .ok r → r ≠ 0 →
      env.resolverAddr r (namehash name) 0 = .ok 0 →
      resolve_ens_to_address env name =
        .error ("ENS name " ++ name ++ " does not resolve to an address")) ∧
    (∀ r a, env.registryResolver (namehash name) 0 = .ok r → r ≠ 0 →
      env.resolverAddr r (namehash name) 0 = .ok a → a ≠ 0 →
      resolve_ens_to_address env name = .ok a) ∧
    (∀ env2 : EnsEnv,
      env2.registryResolver (namehash name) 0 = env.registryResolver (namehash name) 0 →
      (∀ r, env2.resolverAddr r (namehash name) 0 = env.resolverAddr r (namehash name) 0) →
      resolve_ens_to_address env2 name = resolve_ens_to_address env name) := by
  refine ⟨?_, ?_, ?_, ?_, ?_, ?_⟩
  · intro e h
    simp [resolve_ens_to_address, h]
  · intro h
    simp [resolve_ens_to_address, h]
  · intro r e h hr h2
    simp [resolve_ens_to_address, h, hr, h2]
  · intro r h hr h2
    simp [resolve_ens_to_address, h, hr, h2]
  · intro r a h hr h2 ha
    simp [resolve_ens_to_address, h, hr, h2, ha]
  · intro env2 hreg hres
    unfold resolve_ens_to_address
    dsimp only
    rw [hreg]
    cases env.registryResolver (namehash name) 0 with
    | error e => rfl
    | ok r =>
      by_cases hr : r = 0
      · simp [hr]
      · simp [hr, hres r]

/-- An environment with a fixed resolver (5) resolving the node to 7. -/
def ensEnvOk : EnsEnv :=
  { registryResolver := fun _ _ => .ok 5,
    resolverAddr := fun _ _ _ => .ok 7 }

/-- Witness for C3 at a concrete environment and name. -/
theorem resolve_ens_two_step_witness :
    resolve_ens_to_address ensEnvOk "vitalik.eth" = .ok 7 :=
  (resolve_ens_two_step ensEnvOk "vitalik.eth").2.2.2.2.1 5 7 rfl
    (by decide) rfl (by decide)

/-! ## Builder tag detection and block assembly
(`helper.rs::detect_builder_tag` lines 30-92,
`types.rs::BlockInfo::from_block` lines 44-88) -/

/-- Rust `char::is_alphanumeric`.  It is exact on ASCII; for non-ASCII
codepoints the Unicode alphanumeric table is abstracted as the parameter
`uni` (no input below exercises it, but the definition stays total). -/
def rustIsAlphanumeric (uni : Char → Bool) (c : Char) : Bool :=
  if c.toNat < 128 then
    (48 ≤ c.toNat && c.toNat ≤ 57) || (65 ≤ c.toNat && c.toNat ≤ 90)
      || (97 ≤ c.toNat && c.toNat ≤ 122)
  else uni c

/-- The known-builder address table of src/rpc/helper.rs lines 75-83. -/
def knownBuilderAddrs : List (String × String) :=
  [("0x95222290dd7278aa3ddd389cc1e1d165cc4bafe5", "Flashbots"),
   ("0x690b9a9e9aa1c9db991c7721a92d351db4fac990", "builder0x69"),
   ("0x1f9090aae28b8a3dceadf281b0f12828e676c326", "rsync"),
   ("0xdafea492d9c6733ae3d56b7ed1adb60692c98bc5", "Beacon Depositor")]

/-- Debug formatting of a 20-byte value: `0x` plus lowercase hex. -/
def fmtBytes (bs : List Nat) : String := "0x" ++ hex_encode bs

/-- The known-builder-address fallback of `detect_builder_tag`
(lines 73-91): the debug-formatted, lowercased miner address is matched
against each known address in table order. -/
def minerBuilderTag (miner : List Nat) : Option String :=
  let miner_str := toLowerStr (fmtBytes miner)
  (knownBuilderAddrs.find? (fun p => strContainsSub miner_str p.1)).map (fun p => p.2)

/-- Models `helper.rs::detect_builder_tag`.  `s.len() < 32` in the source is
the *byte* length of the decoded string, which equals `extra_data.length`
since decoding consumed exactly those bytes. -/
def detect_builder_tag (uni : Char → Bool) (extra_data : List Nat)
    (miner : List Nat) : Option String :=
  match utf8Decode extra_data with
  | some cs =>
    let s := String.mk cs
    let lower := toLowerStr s
    if strContainsSub lower "flashbots" then some "Flashbots"
    else if strContainsSub lower "bloxroute" || strContainsSub lower "blxr" then
      some "bloXroute"
    else if strContainsSub lower "builder0x69" then some "builder0x69"
    else if strContainsSub lower "titan" then some "Titan"
    else if strContainsSub lower "rsync" then some "rsync"
    else if strContainsSub lower "beaver" then some "Beaver"
    else if strContainsSub lower "buildai" then some "BuildAI"
    else if strContainsSub lower "penguinbuild" then some "Penguin"
    else if strContainsSub lower "ethbuilder" then some "EthBuilder"
    else if strContainsSub lower "blocknative" then some "Blocknative"
    else if extra_data.length < 32
        && cs.all (fun c => rustIsAlphanumeric uni c || c = ' ' || c = '-' || c = '_') then
      some s
    else minerBuilderTag miner
  | none => minerBuilderTag miner

/-- Models `BlockInfo::try_decode_extra_data` (types.rs lines 80-88). -/
def try_decode_extra_data (data : List Nat) : Option String :=
  if data = [] then none
  else
    match utf8Decode data with
    | none => none
    | some cs =>
      if cs.all (fun c => (0x21 ≤ c.toNat && c.toNat ≤ 0x7E) || c = ' ') then
        some (String.mk cs)
      else none

/-- The block-header fields consumed by `BlockInfo::from_block`. -/
structure BlockHeader where
  number : Nat
  hash : List Nat
  parent_hash : List Nat
  timestamp : Nat
  gas_used : Nat
  gas_limit : Nat
  base_fee_per_gas : Option Nat
  beneficiary : List Nat
  state_root : List Nat
  receipts_root : List Nat
  transactions_root : List Nat
  extra_data : List Nat
  size : Option Nat
  blob_gas_used : Option Nat
  excess_blob_gas : Option Nat

/-- The block fields consumed by `BlockInfo::from_block`; the transaction,
uncle and withdrawal collections appear only through their lengths. -/
structure Block where
  header : BlockHeader
  /-- Models `block.transactions.len()`. -/
  tx_count : Nat
  /-- Models `block.uncles.len()`. -/
  uncles_count : Nat
  /-- Models `block.withdrawals.as_ref().map(|w| w.len())`. -/
  withdrawals_count : Option Nat

/-- Models `types.rs::BlockInfo`. -/
structure BlockInfo where
  number : Nat
  hash : String
  parent_hash : String
  timestamp : Nat
  gas_used : Nat
  gas_limit : Nat
  base_fee : Option Nat
  tx_count : Nat
  miner : String
  miner_ens : Option String
  state_root : String
  receipts_root : String
  transactions_root : String
  extra_data : String
  extra_data_decoded : Option String
  size : Option Nat
  uncles_count : Nat
  withdrawals_count : Option Nat
  blob_gas_used : Option Nat
  excess_blob_gas : Option Nat
  blob_count : Nat
  total_value_transferred : Nat
  total_fees : Nat
  burnt_fees : Nat
  builder_tag : Option String

/-- Models `BlockInfo::from_block` (types.rs lines 45-78).  `size` keeps the
`u64::try_from` conversion of the source (`None` when it does not fit). -/
def BlockInfo.from_block (uni : Char → Bool) (block : Block) : BlockInfo :=
  { number := block.header.number,
    hash := fmtBytes block.header.hash,
    parent_hash := fmtBytes block.header.parent_hash,
    timestamp := block.header.timestamp,
    gas_used := block.header.gas_used,
    gas_limit := block.header.gas_limit,
    base_fee := block.header.base_fee_per_gas,
    tx_count := block.tx_count,
    miner := fmtBytes block.header.beneficiary,
    miner_ens := none,
    state_root := fmtBytes block.header.state_root,
    receipts_root := fmtBytes block.header.receipts_root,
    transactions_root := fmtBytes block.header.transactions_root,
    extra_data := fmtBytes block.header.extra_data,
    extra_data_decoded := try_decode_extra_data block.header.extra_data,
    size := block.header.size.bind (fun s => if s < 2 ^ 64 then some s else none),
    uncles_count := block.uncles_count,
    withdrawals_count := block.withdrawals_count,
    blob_gas_used := block.header.blob_gas_used,
    excess_blob_gas := block.header.excess_blob_gas,
    blob_count := 0,
    total_value_transferred := 0,
    total_fees := 0,
    burnt_fees := 0,
    builder_tag := detect_builder_tag uni block.header.extra_data block.header.beneficiary }

/-- A block whose extra-data is the ASCII bytes of `"beaverbuild.org"`. -/
def blockBeaver : Block :=
  { header :=
    { number := 1, hash := List.replicate 32 0, parent_hash := List.replicate 32 0,
      timestamp := 0, gas_used := 0, gas_limit := 0, base_fee_per_gas := none,
      beneficiary := List.replicate 20 0,
      state_root := List.replicate 32 0, receipts_root := List.replicate 32 0,
      transactions_root := List.replicate 32 0,
      extra_data := strBytes "beaverbuild.org",
      size := none, blob_gas_used := none, excess_blob_gas := none },
    tx_count := 0, uncles_count := 0, withdrawals_count := none }

/-- Counterexample for C4 as stated: a `BlockInfo` built by `from_block`
alone — no transaction fetch involved — already carries a detected builder
tag, so not every derived field starts absent. -/
theorem block_builder_tag_counterexample :
    (BlockInfo.from_block (fun _ => false) blockBeaver).builder_tag
      = some "Beaver" ∧
    (BlockInfo.from_block (fun _ => false) blockBeaver).builder_tag ≠ none := by
  refine ⟨by decide, ?_⟩
  intro h
  simp [show (BlockInfo.from_block (fun _ => false) blockBeaver).builder_tag
    = some "Beaver" by decide] at h

/-- Claim C4 (amended): a `BlockInfo` constructed alone by `from_block` has
the numeric derived fields — total value transferred, total fees, burnt
fees, blob count — zeroed, and no resolved miner name; the detected
builder tag, however, is computed by `from_block` itself from the header's
extra-data bytes and miner address. -/
theorem block_info_derived_fields (uni : Char → Bool) (block : Block) :
    (BlockInfo.from_block uni block).total_value_transferred = 0 ∧
    (BlockInfo.from_block uni block).total_fees = 0 ∧
    (BlockInfo.from_block uni block).burnt_fees = 0 ∧
    (BlockInfo.from_block uni block).blob_count = 0 ∧
    (BlockInfo.from_block uni block).miner_ens = none ∧
    (BlockInfo.from_block uni block).builder_tag =
      detect_builder_tag uni block.header.extra_data block.header.beneficiary :=
  ⟨rfl, rfl, rfl, rfl, rfl, rfl⟩

/-! ## AddressAssembler (`RpcClient::get_address`, src/rpc/mod.rs
lines 315-380)

The closure passed to `with_retry` is modelled with its five RPC reads and
three probes as an environment record; the returned trace lists, in call
order, the sub-operations actually started, so gating is observable. -/

/-- Models `types.rs::TokenInfo`. -/
structure TokenInfo where
  name : Option String
  symbol : Option String
  decimals : Option Nat
  total_supply : Option Nat
  deriving Repr, DecidableEq

/-- Models `types.rs::TokenBalance` (token address as a 160-bit number). -/
structure TokenBalance where
  symbol : String
  name : String
  address : Nat
  balance : Nat
  decimals : Nat
  deriving Repr, DecidableEq

/-- Models `types.rs::AddressInfo`. -/
structure AddressInfo where
  address : Nat
  balance : Nat
  nonce : Nat
  is_contract : Bool
  code_size : Option Nat
  proxy_impl : Option Nat
  token_info : Option TokenInfo
  ens_name : Option String
  owner : Option String
  token_balances : List TokenBalance
  deriving Repr, DecidableEq

/-- Results of the RPC reads and probes available to one execution of the
`get_address` closure. -/
structure AddrEnv where
  balance : Except String Nat
  nonce : Except String Nat
  code : Except String (List Nat)
  /-- Outcome of `get_proxy_implementation`. -/
  proxy_impl : Except String (Option Nat)
  /-- Outcome of `detect_erc20`. -/
  token_info : Except String (Option TokenInfo)
  /-- Outcome of `resolve_ens_name` (infallible `Option` in the source). -/
  ens_name : Option String
  /-- Outcome of `read_owner`. -/
  owner : Except String String
  /-- Outcome of `get_token_balances` (infallible in the source). -/
  token_balances : List TokenBalance

/-- Debug formatting of a 160-bit address number. -/
def addrToString (a : Nat) : String :=
  "0x" ++ hex_encode ((List.range 20).map (fun i => a / 256 ^ (19 - i) % 256))

/-- Models the body of the closure in `RpcClient::get_address`: fetch
balance, nonce and code (each aborting on failure with its context
message), then run the contract probes only when the code is non-empty,
resolve the name unconditionally, and assemble `AddressInfo`.  The second
component lists the sub-operations started, in order. -/
def get_address_inner (env : AddrEnv) (address : Nat) :
    Except String AddressInfo × List String :=
  match env.balance with
  | .error e =>
    (.error ("RPC call get_balance(" ++ addrToString address ++ ") failed: " ++ e),
     ["get_balance"])
  | .ok balance =>
    match env.nonce with
    | .error e =>
      (.error ("RPC call get_transaction_count(" ++ addrToString address
          ++ ") failed: " ++ e),
       ["get_balance", "get_transaction_count"])
    | .ok nonce =>
      match env.code with
      | .error e =>
        (.error ("RPC call get_code_at(" ++ addrToString address ++ ") failed: " ++ e),
         ["get_balance", "get_transaction_count", "get_code_at"])
      | .ok code =>
        let is_contract := !code.isEmpty
        let code_size := if is_contract then some code.length else none
        let proxy_impl := if is_contract then env.proxy_impl.toOption.join else none
        let token_info := if is_contract then env.token_info.toOption.join else none
        let owner := if is_contract then env.owner.toOption else none
        (.ok { address := address, balance := balance, nonce := nonce,
               is_contract := is_contract, code_size := code_size,
               proxy_impl := proxy_impl, token_info := token_info,
               ens_name := env.ens_name, owner := owner,
               token_balances := env.token_balances },
         ["get_balance", "get_transaction_count", "get_code_at"]
           ++ (if is_contract then ["get_proxy_implementation"] else [])
           ++ (if is_contract then ["detect_erc20"] else [])
           ++ ["resolve_ens_name"]
           ++ (if is_contract then ["read_owner"] else [])
           ++ ["get_token_balances"])

/-- Claim C5 (amended): when the three primary reads succeed, `get_address`
runs the ContractInspector probes (proxy slot, token detection, owner)
exactly when the fetched code is non-empty, always attempts name
resolution, always runs the token-balance scan — the scanner is *not*
gated on contract status (src/rpc/mod.rs line 363) — and fills the record
with the probe results gated the same way. -/
theorem get_address_probe_gating (env : AddrEnv) (address b n : Nat)
    (c : List Nat) (hb : env.balance = .ok b) (hn : env.nonce = .ok n)
    (hc : env.code = .ok c) :
    (get_address_inner env address).2 =
      ["get_balance", "get_transaction_count", "get_code_at"]
        ++ (if !c.isEmpty then ["get_proxy_implementation"] else [])
        ++ (if !c.isEmpty then ["detect_erc20"] else [])
        ++ ["resolve_ens_name"]
        ++ (if !c.isEmpty then ["read_owner"] else [])
        ++ ["get_token_balances"] ∧
    "resolve_ens_name" ∈ (get_address_inner env address).2 ∧
    "get_token_balances" ∈ (get_address_inner env address).2 ∧
    ("get_proxy_implementation" ∈ (get_address_inner env address).2 ↔ c ≠ []) ∧
    (get_address_inner env address).1 = .ok
      { address := address, balance := b, nonce := n,
        is_contract := !c.isEmpty,
        code_size := if !c.isEmpty then some c.length else none,
        proxy_impl := if !c.isEmpty then env.proxy_impl.toOption.join else none,
        token_info := if !c.isEmpty then env.token_info.toOption.join else none,
        ens_name := env.ens_name,
        owner := if !c.isEmpty then env.owner.toOption else none,
        token_balances := env.token_balances } := by
  cases c with
  | nil => simp [get_address_inner, hb, hn, hc]
  | cons x xs => simp [get_address_inner, hb, hn, hc]

/-- A contract-address environment: two bytes of code, every probe
populated. -/
def addrEnvContract : AddrEnv :=
  { balance := .ok 1000, nonce := .ok 7, code := .ok [0x60, 0x80],
    proxy_impl := .ok (some 9), token_info := .ok none,
    ens_name := some "example.eth", owner := .error "No owner",
    token_balances := [] }

/-- Witness for C5: on a contract address every probe appears in the call
trace, in source order. -/
theorem get_address_probe_gating_witness :
    (get_address_inner addrEnvContract 5).2 =
      ["get_balance", "get_transaction_count", "get_code_at",
       "get_proxy_implementation", "detect_erc20", "resolve_ens_name",
       "read_owner", "get_token_balances"] := by
  have h := (get_address_probe_gating addrEnvContract 5 1000 7 [0x60, 0x80]
    rfl rfl rfl).1
  simpa using h

/-- An externally-owned-account environment: the fetched code is empty, yet
the token-balance scan has results to report. -/
def addrEnvEoa : AddrEnv :=
  { balance := .ok 5, nonce := .ok 0, code := .ok [],
    proxy_impl := .error "unused", token_info := .error "unused",
    ens_name := none, owner := .error "unused",
    token_balances := [{ symbol := "USDC", name := "USD Coin",
                         address := 0xA0b86991c6218b36c1d19D4a2e9Eb0cE3606eB48,
                         balance := 200, decimals := 6 }] }

/-- Counterexample for C5 as stated: on an address whose code is empty (not
a contract), `get_address` still runs the TokenBalanceScanner — the call
trace contains `get_token_balances` and the scan's results populate the
record — so the scanner is not gated on non-empty code. -/
theorem token_scanner_ungated_counterexample :
    (get_address_inner addrEnvEoa 7).2 =
      ["get_balance", "get_transaction_count", "get_code_at",
       "resolve_ens_name", "get_token_balances"] ∧
    "get_token_balances" ∈ (get_address_inner addrEnvEoa 7).2 ∧
    (get_address_inner addrEnvEoa 7).1 = .ok
      { address := 7, balance := 5, nonce := 0, is_contract := false,
        code_size := none, proxy_impl := none, token_info := none,
        ens_name := none, owner := none,
        token_balances := [{ symbol := "USDC", name := "USD Coin",
                             address := 0xA0b86991c6218b36c1d19D4a2e9Eb0cE3606eB48,
                             balance := 200, decimals := 6 }] } := by
  refine ⟨rfl, by decide, rfl⟩

/-! ## TokenBalanceScanner (`RpcClient::get_token_balances` and
`fetch_token_balances_inner`, src/rpc/mod.rs lines 529-586;
`helper.rs::POPULAR_TOKENS` lines 131-192)

The `balanceOf` eth-call is abstracted as an oracle keyed by the token
contract address (the calldata — selector, 12 zero bytes, target address —
is fixed per scan and folded into the oracle); the surrounding 5-second
`tokio::time::timeout` is modelled by the Boolean `timedOut`. -/

/-- The popular-token table: symbol, display name, contract address hex,
decimals. -/
def POPULAR_TOKENS : List (String × String × String × Nat) :=
  [("USDT", "Tether USD", "0xdAC17F958D2ee523a2206206994597C13D831ec7", 6),
   ("USDC", "USD Coin", "0xA0b86991c6218b36c1d19D4a2e9Eb0cE3606eB48", 6),
   ("WETH", "Wrapped Ether", "0xC02aaA39b223FE8D0A0e5C4F27eAD9083C756Cc2", 18),
   ("DAI", "Dai Stablecoin", "0x6B175474E89094C44Da98b954EedeAC495271d0F", 18),
   ("WBTC", "Wrapped Bitcoin", "0x2260FAC5E5542a773Aa44fBCfeDf7C193bc2C599", 8),
   ("LINK", "Chainlink", "0x514910771AF9Ca656af840dff83E8264EcF986CA", 18),
   ("UNI", "Uniswap", "0x1f9840a85d5aF5bf1D1762F925BDADdC4201F984", 18),
   ("MATIC", "Polygon", "0x7D1AfA7B718fb893dB30A3aBc0Cfc608AaCfeBB0", 18),
   ("SHIB", "Shiba Inu", "0x95aD61b0a150d79219dCF64E1E6Cc01f0B64C4cE", 18),
   ("stETH", "Lido Staked ETH", "0xae7ab96520DE3A18E5e111B5EaAb095312D7fE84", 18)]

/-- Value of one hex digit character, either case. -/
def hexDigitVal (c : Char) : Option Nat :=
  if 48 ≤ c.toNat ∧ c.toNat ≤ 57 then some (c.toNat - 48)
  else if 97 ≤ c.toNat ∧ c.toNat ≤ 102 then some (c.toNat - 87)
  else if 65 ≤ c.toNat ∧ c.toNat ≤ 70 then some (c.toNat - 55)
  else none

/-- Models `token_addr.parse::<Address>()` for the `0x`-prefixed 40-digit
constants of the table. -/
def parseAddressHex (s : String) : Option Nat :=
  match s.toList with
  | '0' :: 'x' :: rest =>
    if rest.length = 40 then
      rest.foldl (fun acc c => acc.bind (fun a =>
        (hexDigitVal c).map (fun d => a * 16 + d))) (some 0)
    else none
  | _ => none

/-- Models the body of the `for` loop of `fetch_token_balances_inner` as the
accumulator update for one table entry. -/
def fetch_token_balances_inner (call : Nat → Except String (List Nat)) :
    List TokenBalance :=
  POPULAR_TOKENS.foldl
    (fun balances entry =>
      match parseAddressHex entry.2.2.1 with
      | none => balances
      | some token_address =>
        match call token_address with
        | .error _ => balances
        | .ok data =>
          if 32 ≤ data.length then
            let balance := beBytesToNat (data.take 32)
            let min_balance := 10 ^ (entry.2.2.2 - 4)
            if min_balance ≤ balance then
              balances ++ [{ symbol := entry.1, name := entry.2.1,
                             address := token_address, balance := balance,
                             decimals := entry.2.2.2 }]
            else balances
          else balances)
    []

/-- Models `RpcClient::get_token_balances`: the whole scan collapses to the
empty list when the 5-second timeout fires (`unwrap_or_default`). -/
def get_token_balances (timedOut : Bool)
    (call : Nat → Except String (List Nat)) : List TokenBalance :=
  if timedOut then [] else fetch_token_balances_inner call

/-- Whether one table entry contributes an output row, and which. -/
def tokenScanEntry (call : Nat → Except String (List Nat))
    (entry : String × String × String × Nat) : Option TokenBalance :=
  match parseAddressHex entry.2.2.1 with
  | none => none
  | some token_address =>
    match call token_address with
    | .error _ => none
    | .ok data =>
      if 32 ≤ data.length then
        let balance := beBytesToNat (data.take 32)
        if 10 ^ (entry.2.2.2 - 4) ≤ balance then
          some { symbol := entry.1, name := entry.2.1,
                 address := token_address, balance := balance,
                 decimals := entry.2.2.2 }
        else none
      else none

/-- A fold that appends the yield of each element equals the accumulator
followed by `filterMap`. -/
theorem foldl_push_filterMap {β γ : Type} (f : β → Option γ) :
    ∀ (l : List β) (acc : List γ),
      l.foldl (fun bs e => bs ++ (f e).toList) acc = acc ++ l.filterMap f := by
  intro l
  induction l with
  | nil => intro acc; simp
  | cons x xs ih =>
    intro acc
    cases h : f x <;> simp [List.foldl_cons, h, ih]

/-- The loop body of `fetch_token_balances_inner` is the push of
`tokenScanEntry`. -/
theorem fetch_body_eq (call : Nat → Except String (List Nat))
    (bs : List TokenBalance) (entry : String × String × String × Nat) :
    (match parseAddressHex entry.2.2.1 with
      | none => bs
      | some token_address =>
        match call token_address with
        | .error _ => bs
        | .ok data =>
          if 32 ≤ data.length then
            let balance := beBytesToNat (data.take 32)
            let min_balance := 10 ^ (entry.2.2.2 - 4)
            if min_balance ≤ balance then
              bs ++ [{ symbol := entry.1, name := entry.2.1,
                       address := token_address, balance := balance,
                       decimals := entry.2.2.2 }]
            else bs
          else bs) =
    bs ++ (tokenScanEntry call entry).toList := by
  unfold tokenScanEntry
  rcases hp : parseAddressHex entry.2.2.1 with _ | ta
  · simp
  · dsimp only
    rcases hc : call ta with e | data
    · simp
    · dsimp only
      by_cases hd : 32 ≤ data.length
      · simp only [if_pos hd]
        by_cases hb : 10 ^ (entry.2.2.2 - 4) ≤ beBytesToNat (data.take 32) <;>
          simp [hb]
      · simp [hd]

/-- An entry only yields a row whose raw balance meets the dust threshold
`10 ^ (decimals - 4)` (truncated subtraction = `max(decimals - 4, 0)`). -/
theorem tokenScanEntry_threshold (call : Nat → Except String (List Nat))
    (entry : String × String × String × Nat) (tb : TokenBalance)
    (h : tokenScanEntry call entry = some tb) :
    10 ^ (tb.decimals - 4) ≤ tb.balance := by
  unfold tokenScanEntry at h
  rcases hp : parseAddressHex entry.2.2.1 with _ | ta
  · rw [hp] at h
    exact absurd h (by simp)
  rw [hp] at h
  dsimp only at h
  rcases hc : call ta with e | data
  · rw [hc] at h
    exact absurd h (by simp)
  rw [hc] at h
  dsimp only at h
  by_cases hd : 32 ≤ data.length
  · rw [if_pos hd] at h
    by_cases hb : 10 ^ (entry.2.2.2 - 4) ≤ beBytesToNat (data.take 32)
    · rw [if_pos hb] at h
      cases h
      exact hb
    · rw [if_neg hb] at h
      exact absurd h (by simp)
  · rw [if_neg hd] at h
    exact absurd h (by simp)

/-- Claim C7 (amended): the scanner probes `balanceOf` against the fixed
token table; a timeout collapses the whole scan to the empty list; the
output is exactly the table filtered in table order (so per-token call
errors and short responses skip that token only, and never propagate); and
every reported balance is at least `10 ^ max(decimals - 4, 0)` raw units. -/
theorem token_balance_scan (timedOut : Bool)
    (call : Nat → Except String (List Nat)) :
    get_token_balances true call = [] ∧
    get_token_balances false call =
      POPULAR_TOKENS.filterMap (tokenScanEntry call) ∧
    (∀ tb ∈ get_token_balances timedOut call,
      10 ^ (tb.decimals - 4) ≤ tb.balance) ∧
    (∀ tb ∈ get_token_balances timedOut call,
      ∃ entry ∈ POPULAR_TOKENS, tokenScanEntry call entry = some tb) := by
  have hfilter : get_token_balances false call =
      POPULAR_TOKENS.filterMap (tokenScanEntry call) := by
    show fetch_token_balances_inner call = _
    unfold fetch_token_balances_inner
    have hext := List.foldl_ext _
      (fun bs e => bs ++ (tokenScanEntry call e).toList)
      ([] : List TokenBalance)
      (l := POPULAR_TOKENS)
      (fun bs entry _ => fetch_body_eq call bs entry)
    rw [hext]
    simpa using foldl_push_filterMap (tokenScanEntry call) POPULAR_TOKENS []
  have hmem : ∀ tb ∈ get_token_balances timedOut call,
      ∃ entry ∈ POPULAR_TOKENS, tokenScanEntry call entry = some tb := by
    intro tb htb
    cases timedOut with
    | true => exact absurd htb (by simp [get_token_balances])
    | false =>
      rw [hfilter] at htb
      exact (List.mem_filterMap).1 htb
  refine ⟨rfl, hfilter, ?_, hmem⟩
  intro tb htb
  obtain ⟨entry, _, he⟩ := hmem tb htb
  exact tokenScanEntry_threshold call entry tb he

/-- The USDT contract address of the table. -/
def usdtAddrNat : Nat := 0xdAC17F958D2ee523a2206206994597C13D831ec7

/-- The USDC contract address of the table. -/
def usdcAddrNat : Nat := 0xA0b86991c6218b36c1d19D4a2e9Eb0cE3606eB48

/-- A call oracle returning a 10-byte (undecodable) response for every
token except USDC, which gets a healthy 32-byte balance of 200. -/
def callShortExceptUsdc : Nat → Except String (List Nat) :=
  fun a =>
    if a = usdcAddrNat then .ok (List.replicate 31 0 ++ [200])
    else .ok (List.replicate 10 0)

/-- Counterexample for C7 as stated: the USDT probe's response is too short
to decode, yet the scan does not yield an empty list — it still reports
the USDC balance. -/
theorem token_scan_decode_failure_counterexample :
    (callShortExceptUsdc usdtAddrNat = .ok (List.replicate 10 0) ∧
      (List.replicate 10 0).length < 32) ∧
    get_token_balances false callShortExceptUsdc =
      [{ symbol := "USDC", name := "USD Coin", address := usdcAddrNat,
         balance := 200, decimals := 6 }] ∧
    get_token_balances false callShortExceptUsdc ≠ [] := by
  exact ⟨⟨rfl, by decide⟩, by decide, by decide⟩

/-- A call oracle with a maximal 32-byte balance everywhere. -/
def callAllBig : Nat → Except String (List Nat) :=
  fun _ => .ok (List.replicate 32 255)

/-- Witness for C7 at concrete oracles. -/
theorem token_balance_scan_witness :
    get_token_balances true callAllBig = [] ∧
    get_token_balances false callAllBig =
      POPULAR_TOKENS.filterMap (tokenScanEntry callAllBig) :=
  ⟨(token_balance_scan true callAllBig).1,
   (token_balance_scan false callAllBig).2.1⟩

/-! ## Transaction assembly and log decoding
(`types.rs::TxInfo::from_tx_and_receipt`, src/rpc/types.rs lines 185-471;
`helper.rs::decode_event_signature` lines 95-128 and
`decode_function_selector` lines 195-246;
`helper.rs::format_u256_decimals` lines 254-277) -/

/-- Drop trailing zero digits, models `str::trim_end_matches('0')` at the
digit level. -/
def trimZeros (l : List Nat) : List Nat :=
  (l.reverse.dropWhile (fun d => d = 0)).reverse

/-- Models `helper.rs::format_u256_decimals`.  The divisor
`U256::from(10u64).pow(U256::from(decimals))` is 256-bit arithmetic, so it
wraps modulo `2 ^ 256` (reachable: `decimals` is a `u8`, and `10 ^ d`
overflows from `d = 78` on).  The source pads the decimal rendering of
`remainder` to `decimals` characters with left zeros (`{:0>width$}`) and
trims trailing `'0'` characters; here the same padding and trimming happen
on the digit values before rendering, which commutes with rendering
because each digit maps to its own character. -/
def format_u256_decimals (value decimals : Nat) : String :=
  if value = 0 then "0"
  else
    let divisor := 10 ^ decimals % 2 ^ 256
    let whole := value / divisor
    let remainder := value % divisor
    if remainder = 0 then natToString whole
    else
      let frac_digits := decDigits remainder
      let padded := List.replicate (decimals - frac_digits.length) 0 ++ frac_digits
      let trimmed := trimZeros padded
      if trimmed = [] then natToString whole
      else natToString whole ++ "." ++ String.mk (trimmed.map decDigitChar)

/-- Models `types.rs::TxType`. -/
inductive TxType where
  | Legacy
  | AccessList
  | EIP1559
  | Blob
  | Unknown (n : Nat)
  deriving Repr, DecidableEq

/-- Models `TxType::from_type_byte`. -/
def TxType.from_type_byte (ty : Nat) : TxType :=
  match ty with
  | 0 => .Legacy
  | 1 => .AccessList
  | 2 => .EIP1559
  | 3 => .Blob
  | n => .Unknown n

/-- Models `types.rs::DecodedParam`. -/
structure DecodedParam where
  name : String
  value : String
  is_address : Bool
  deriving Repr, DecidableEq

/-- Models `types.rs::DecodedLog`. -/
structure DecodedLog where
  address : String
  topics : List String
  data : String
  event_name : Option String
  decoded_params : List DecodedParam
  deriving Repr, DecidableEq

/-- Models `types.rs::TokenTransfer` (`fromAddr`/`toAddr` stand for the
source's `from`/`to` fields, `from` being reserved in Lean). -/
structure TokenTransfer where
  token_address : String
  fromAddr : String
  toAddr : String
  amount : Nat
  token_symbol : Option String
  decimals : Option Nat
  deriving Repr, DecidableEq

/-- Topic-0 hash of ERC-20 `Transfer`. -/
def transferSig : List Nat := keccakStr "Transfer(address,address,uint256)"

/-- Topic-0 hash of ERC-20 `Approval`. -/
def approvalSig : List Nat := keccakStr "Approval(address,address,uint256)"

/-- Topic-0 hash of the Uniswap-V2 `Swap`. -/
def swapV2Sig : List Nat :=
  keccakStr "Swap(address,uint256,uint256,uint256,uint256,address)"

/-- Topic-0 hash of the Uniswap-V3 `Swap`. -/
def swapV3Sig : List Nat :=
  keccakStr "Swap(address,address,int256,int256,uint160,uint128,int24)"

/-- Topic-0 hash of WETH `Deposit`. -/
def depositSig : List Nat := keccakStr "Deposit(address,uint256)"

/-- Topic-0 hash of WETH `Withdrawal`. -/
def withdrawalSig : List Nat := keccakStr "Withdrawal(address,uint256)"

/-- Models `helper.rs::decode_event_signature`. -/
def decode_event_signature (topic0 : List Nat) : Option String :=
  if topic0 = transferSig then some "Transfer(address,address,uint256)"
  else if topic0 = approvalSig then some "Approval(address,address,uint256)"
  else if topic0 = swapV2Sig then
    some "Swap(address,uint256,uint256,uint256,uint256,address)"
  else if topic0 = swapV3Sig then
    some "Swap(address,address,int256,int256,uint160,uint128,int24)"
  else if topic0 = depositSig then some "Deposit(address,uint256)"
  else if topic0 = withdrawalSig then some "Withdrawal(address,uint256)"
  else none

/-- Models `helper.rs::decode_function_selector`. -/
def decode_function_selector (selector : List Nat) : Option String :=
  if selector.length < 4 then none
  else
    match selector.take 4 with
    | [0xa9, 0x05, 0x9c, 0xbb] => some "transfer(address,uint256)"
    | [0x23, 0xb8, 0x72, 0xdd] => some "transferFrom(address,address,uint256)"
    | [0x09, 0x5e, 0xa7, 0xb3] => some "approve(address,uint256)"
    | [0x70, 0xa0, 0x82, 0x31] => some "balanceOf(address)"
    | [0xdd, 0x62, 0xed, 0x3e] => some "allowance(address,address)"
    | [0x42, 0x84, 0x2e, 0x0e] => some "safeTransferFrom(address,address,uint256)"
    | [0xb8, 0x8d, 0x4f, 0xde] => some "safeTransferFrom(address,address,uint256,bytes)"
    | [0x63, 0x52, 0x21, 0x1e] => some "getApproved(uint256)"
    | [0xa2, 0x2c, 0xb4, 0x65] => some "setApprovalForAll(address,bool)"
    | [0x38, 0xed, 0x17, 0x39] => some "swapExactTokensForTokens"
    | [0x7f, 0xf3, 0x6a, 0xb5] => some "swapExactETHForTokens"
    | [0x18, 0xcb, 0xaf, 0xe5] => some "swapExactTokensForETH"
    | [0xfb, 0x3b, 0xdb, 0x41] => some "swapETHForExactTokens"
    | [0xc0, 0x4b, 0x8d, 0x59] => some "exactInput"
    | [0xdb, 0x3e, 0x21, 0x98] => some "exactInputSingle"
    | [0x09, 0xb8, 0x13, 0x46] => some "exactOutput"
    | [0x5a, 0xe4, 0x01, 0xdc] => some "exactOutputSingle"
    | [0xac, 0x96, 0x50, 0xd8] => some "multicall(uint256,bytes[])"
    | [0x1f, 0x0e, 0x74, 0x08] => some "multicall(bytes[])"
    | [0x39, 0x50, 0x93, 0x51] => some "deposit"
    | [0x2e, 0x1a, 0x7d, 0x4d] => some "withdraw(uint256)"
    | [0x3c, 0xcf, 0xd6, 0x0b] => some "withdraw"
    | [0xd0, 0xe3, 0x0d, 0xb0] => some "mint"
    | [0xa0, 0x71, 0x2d, 0x68] => some "burn"
    | [0x01, 0xff, 0xc9, 0xa7] => some "supportsInterface(bytes4)"
    | [0x3e, 0x58, 0xc5, 0x8c] => some "proxy()"
    | [0x5c, 0x60, 0xda, 0x1b] => some "implementation()"
    | [0xf8, 0x51, 0xa4, 0x40] => some "admin()"
    | [0x4f, 0x1e, 0xf2, 0x86] => some "upgradeTo(address)"
    | [0xe8, 0xed, 0xa9, 0xdf] => some "flashLoan"
    | [0x69, 0x32, 0x8d, 0xec] => some "supply"
    | [0xa4, 0x15, 0xbc, 0xad] => some "borrow"
    | [0x57, 0x3e, 0xab, 0x5f] => some "repay"
    | [0x3b, 0x3b, 0x57, 0xde] => some "setAddr(bytes32,address)"
    | [0x01, 0xfb, 0xc9, 0x8e] => some "setName(string)"
    | _ => none

/-- A receipt log: emitting contract address (20 bytes), topics (32 bytes
each), data payload. -/
structure RLog where
  address : List Nat
  topics : List (List Nat)
  data : List Nat

/-- The receipt fields consumed by `from_tx_and_receipt`. -/
structure Receipt where
  gas_used : Nat
  effective_gas_price : Nat
  status : Bool
  contract_address : Option (List Nat)
  logs : List RLog
  blob_gas_used : Option Nat
  blob_gas_price : Option Nat

/-- The transaction fields consumed by `from_tx_and_receipt`
(`fromAddr`/`toAddr` model the accessors `tx.from()`/`tx.to()`;
`access_list_len` models `access_list().map(|al| al.len())`). -/
structure Tx where
  hash : List Nat
  fromAddr : List Nat
  toAddr : Option (List Nat)
  value : Nat
  gas_price : Option Nat
  gas_limit : Nat
  nonce : Nat
  block_number : Option Nat
  input : List Nat
  ty : Nat
  max_fee_per_gas : Option Nat
  max_priority_fee_per_gas : Option Nat
  transaction_index : Option Nat
  access_list_len : Option Nat
  blob_versioned_hashes : Option (List (List Nat))

/-- Models `types.rs::TxInfo`. -/
structure TxInfo where
  hash : String
  fromAddr : String
  toAddr : Option String
  value : Nat
  gas_price : Option Nat
  gas_limit : Nat
  gas_used : Option Nat
  nonce : Nat
  block_number : Option Nat
  status : Option Bool
  input_size : Nat
  tx_type : TxType
  max_fee_per_gas : Option Nat
  max_priority_fee_per_gas : Option Nat
  tx_index : Option Nat
  contract_created : Option String
  logs_count : Option Nat
  access_list_size : Option Nat
  blob_gas_used : Option Nat
  blob_gas_price : Option Nat
  blob_hashes : List String
  input_data : List Nat
  from_ens : Option String
  to_ens : Option String
  actual_fee : Option Nat
  decoded_method : Option String
  logs : List DecodedLog
  token_transfers : List TokenTransfer

/-- One iteration of the log loop of `from_tx_and_receipt` (types.rs lines
224-432): the decoded log pushed to `logs` and the token transfer pushed
to `transfers` (only the ERC-20 `Transfer` branch pushes one).  Indexing
such as `topics()[1]` in the source is guarded by the branch's length
test, so `getD _ []` is exercised only in bounds. -/
def decodeOneLog (log : RLog) : DecodedLog × Option TokenTransfer :=
  let topics := log.topics
  let topicsStr := topics.map fmtBytes
  let dataStr := "0x" ++ hex_encode log.data
  let event_name := topics.head?.bind decode_event_signature
  match topics.head? with
  | none =>
    ({ address := fmtBytes log.address, topics := topicsStr, data := dataStr,
       event_name := none, decoded_params := [] }, none)
  | some topic0 =>
    if topic0 = transferSig ∧ 3 ≤ topics.length then
      let fromA := "0x" ++ hex_encode ((topics.getD 1 []).drop 12)
      let toA := "0x" ++ hex_encode ((topics.getD 2 []).drop 12)
      let amount := if 32 ≤ log.data.length then beBytesToNat (log.data.take 32) else 0
      ({ address := fmtBytes log.address, topics := topicsStr, data := dataStr,
         event_name := event_name,
         decoded_params :=
           [{ name := "from", value := fromA, is_address := true },
            { name := "to", value := toA, is_address := true },
            { name := "value", value := format_u256_decimals amount 18,
              is_address := false }] },
       some { token_address := fmtBytes log.address, fromAddr := fromA,
              toAddr := toA, amount := amount, token_symbol := none,
              decimals := none })
    else if topic0 = approvalSig ∧ 3 ≤ topics.length then
      let ownerA := "0x" ++ hex_encode ((topics.getD 1 []).drop 12)
      let spenderA := "0x" ++ hex_encode ((topics.getD 2 []).drop 12)
      let amount := if 32 ≤ log.data.length then beBytesToNat (log.data.take 32) else 0
      let amount_display :=
        if amount = 2 ^ 256 - 1 then "unlimited" else format_u256_decimals amount 18
      ({ address := fmtBytes log.address, topics := topicsStr, data := dataStr,
         event_name := event_name,
         decoded_params :=
           [{ name := "owner", value := ownerA, is_address := true },
            { name := "spender", value := spenderA, is_address := true },
            { name := "value", value := amount_display, is_address := false }] },
       none)
    else if topic0 = swapV2Sig ∧ 2 ≤ topics.length then
      let senderA := "0x" ++ hex_encode ((topics.getD 1 []).drop 12)
      let amountParams :=
        if 128 ≤ log.data.length then
          [{ name := "amount0In",
             value := format_u256_decimals (beBytesToNat ((log.data.drop 0).take 32)) 18,
             is_address := false },
           { name := "amount1In",
             value := format_u256_decimals (beBytesToNat ((log.data.drop 32).take 32)) 18,
             is_address := false },
           { name := "amount0Out",
             value := format_u256_decimals (beBytesToNat ((log.data.drop 64).take 32)) 18,
             is_address := false },
           { name := "amount1Out",
             value := format_u256_decimals (beBytesToNat ((log.data.drop 96).take 32)) 18,
             is_address := false }]
        else []
      let toParams :=
        if 160 ≤ log.data.length then
          [{ name := "to",
             value := "0x" ++ hex_encode ((log.data.drop 140).take 20),
             is_address := true }]
        else []
      ({ address := fmtBytes log.address, topics := topicsStr, data := dataStr,
         event_name := event_name,
         decoded_params :=
           { name := "sender", value := senderA, is_address := true }
             :: amountParams ++ toParams }, none)
    else if topic0 = depositSig ∧ 2 ≤ topics.length then
      let dst := "0x" ++ hex_encode ((topics.getD 1 []).drop 12)
      let amount := if 32 ≤ log.data.length then beBytesToNat (log.data.take 32) else 0
      ({ address := fmtBytes log.address, topics := topicsStr, data := dataStr,
         event_name := event_name,
         decoded_params :=
           [{ name := "dst", value := dst, is_address := true },
            { name := "wad", value := format_u256_decimals amount 18,
              is_address := false }] }, none)
    else if topic0 = withdrawalSig ∧ 2 ≤ topics.length then
      let src := "0x" ++ hex_encode ((topics.getD 1 []).drop 12)
      let amount := if 32 ≤ log.data.length then beBytesToNat (log.data.take 32) else 0
      ({ address := fmtBytes log.address, topics := topicsStr, data := dataStr,
         event_name := event_name,
         decoded_params :=
           [{ name := "src", value := src, is_address := true },
            { name := "wad", value := format_u256_decimals amount 18,
              is_address := false }] }, none)
    else
      let topicParams := (topics.enum.drop 1).map (fun p =>
        if ((p.2.take 12).all (fun b => b = 0)) then
          { name := "topic" ++ natToString p.1,
            value := "0x" ++ hex_encode (p.2.drop 12),
            is_address := true }
        else
          { name := "topic" ++ natToString p.1,
            value := natToString (beBytesToNat p.2),
            is_address := false })
      let num_chunks := log.data.length / 32
      let dataParams := (List.range (min num_chunks 4)).filterMap (fun i =>
        if 32 * i + 32 ≤ log.data.length then
          some { name := "data" ++ natToString i,
                 value := format_u256_decimals
                   (beBytesToNat ((log.data.drop (32 * i)).take 32)) 18,
                 is_address := false }
        else none)
      ({ address := fmtBytes log.address, topics := topicsStr, data := dataStr,
         event_name := event_name,
         decoded_params := topicParams ++ dataParams }, none)

/-- Models `TxInfo::from_tx_and_receipt` (types.rs lines 186-471).  The
imperative log loop becomes a map for `logs` and a `filterMap` for
`token_transfers`, in the same log order. -/
def from_tx_and_receipt (tx : Tx) (receipt : Option Receipt) : TxInfo :=
  let tx_type := TxType.from_type_byte tx.ty
  let blob_hashes := (tx.blob_versioned_hashes.map (fun hs => hs.map fmtBytes)).getD []
  let actual_fee := receipt.map (fun r => r.gas_used * r.effective_gas_price)
  let decoded_method :=
    if 4 ≤ tx.input.length then decode_function_selector tx.input else none
  let logsPair :=
    match receipt with
    | some r => (r.logs.map (fun l => (decodeOneLog l).1),
                 r.logs.filterMap (fun l => (decodeOneLog l).2))
    | none => ([], [])
  { hash := fmtBytes tx.hash,
    fromAddr := fmtBytes tx.fromAddr,
    toAddr := tx.toAddr.map fmtBytes,
    value := tx.value,
    gas_price := tx.gas_price,
    gas_limit := tx.gas_limit,
    gas_used := receipt.map (fun r => r.gas_used),
    nonce := tx.nonce,
    block_number := tx.block_number,
    status := receipt.map (fun r => r.status),
    input_size := tx.input.length,
    tx_type := tx_type,
    max_fee_per_gas := tx.max_fee_per_gas,
    max_priority_fee_per_gas := tx.max_priority_fee_per_gas,
    tx_index := tx.transaction_index,
    contract_created := (receipt.bind (fun r => r.contract_address)).map fmtBytes,
    logs_count := receipt.map (fun r => r.logs.length),
    access_list_size := tx.access_list_len,
    blob_gas_used := receipt.bind (fun r => r.blob_gas_used),
    blob_gas_price := receipt.bind (fun r => r.blob_gas_price),
    blob_hashes := blob_hashes,
    input_data := tx.input,
    from_ens := none,
    to_ens := none,
    actual_fee := actual_fee,
    decoded_method := decoded_method,
    logs := logsPair.1,
    token_transfers := logsPair.2 }

/-! ## Theorems about transaction assembly -/

/-- Claim C6 (amended): in a `TxInfo`, `gas_used`, `status` and `actual_fee`
are present iff a receipt was retrieved, `actual_fee` equalling
`gas_used * effective_gas_price`; `contract_created`, though, is present
iff the retrieved receipt itself carries a contract address. -/
theorem txinfo_receipt_fields (tx : Tx) (r : Receipt) :
    (from_tx_and_receipt tx none).gas_used = none ∧
    (from_tx_and_receipt tx none).status = none ∧
    (from_tx_and_receipt tx none).actual_fee = none ∧
    (from_tx_and_receipt tx none).contract_created = none ∧
    (from_tx_and_receipt tx (some r)).gas_used = some r.gas_used ∧
    (from_tx_and_receipt tx (some r)).status = some r.status ∧
    (from_tx_and_receipt tx (some r)).actual_fee =
      some (r.gas_used * r.effective_gas_price) ∧
    (from_tx_and_receipt tx (some r)).contract_created =
      r.contract_address.map fmtBytes :=
  ⟨rfl, rfl, rfl, rfl, rfl, rfl, rfl, rfl⟩

/-- The `decodeOneLog` outcome on an ERC-20-Transfer-shaped log. -/
theorem decodeOneLog_transfer (l : RLog)
    (h0 : l.topics.head? = some transferSig) (h3 : 3 ≤ l.topics.length) :
    decodeOneLog l =
      ({ address := fmtBytes l.address,
         topics := l.topics.map fmtBytes,
         data := "0x" ++ hex_encode l.data,
         event_name := decode_event_signature transferSig,
         decoded_params :=
           [{ name := "from",
              value := "0x" ++ hex_encode ((l.topics.getD 1 []).drop 12),
              is_address := true },
            { name := "to",
              value := "0x" ++ hex_encode ((l.topics.getD 2 []).drop 12),
              is_address := true },
            { name := "value",
              value := format_u256_decimals
                (if 32 ≤ l.data.length then beBytesToNat (l.data.take 32) else 0) 18,
              is_address := false }] },
       some { token_address := fmtBytes l.address,
              fromAddr := "0x" ++ hex_encode ((l.topics.getD 1 []).drop 12),
              toAddr := "0x" ++ hex_encode ((l.topics.getD 2 []).drop 12),
              amount := if 32 ≤ l.data.length then beBytesToNat (l.data.take 32) else 0,
              token_symbol := none, decimals := none }) := by
  unfold decodeOneLog
  dsimp only
  rw [h0]
  dsimp only
  rw [if_pos ⟨rfl, h3⟩, Option.some_bind']

/-- Claim C8: a transaction whose receipt has exactly two Transfer-shaped
logs (topic0 = the Transfer signature hash, at least 3 topics, at least 32
data bytes) yields exactly two `DecodedLog` entries, each with exactly the
three parameters `from`, `to`, `value` in that order — the first two
flagged as addresses — and exactly two corresponding `TokenTransfer`
entries, in log order. -/
theorem two_transfer_logs (tx : Tx) (r : Receipt) (l1 l2 : RLog)
    (hlogs : r.logs = [l1, l2])
    (h01 : l1.topics.head? = some transferSig) (h31 : 3 ≤ l1.topics.length)
    (hd1 : 32 ≤ l1.data.length)
    (h02 : l2.topics.head? = some transferSig) (h32 : 3 ≤ l2.topics.length)
    (hd2 : 32 ≤ l2.data.length) :
    (from_tx_and_receipt tx (some r)).logs.length = 2 ∧
    (∀ dl ∈ (from_tx_and_receipt tx (some r)).logs,
      dl.decoded_params.map (fun p => p.name) = ["from", "to", "value"] ∧
      dl.decoded_params.map (fun p => p.is_address) = [true, true, false]) ∧
    (from_tx_and_receipt tx (some r)).token_transfers.length = 2 ∧
    (from_tx_and_receipt tx (some r)).logs_count = some 2 ∧
    (from_tx_and_receipt tx (some r)).token_transfers.map
        (fun t => t.token_address) =
      [fmtBytes l1.address, fmtBytes l2.address] := by
  have e1 := decodeOneLog_transfer l1 h01 h31
  have e2 := decodeOneLog_transfer l2 h02 h32
  refine ⟨?_, ?_, ?_, ?_, ?_⟩ <;>
    simp [from_tx_and_receipt, hlogs, e1, e2]

/-- Witness inputs for C8: two concrete Transfer-shaped logs. -/
def padAddr (b : Nat) : List Nat := List.replicate 12 0 ++ List.replicate 20 b

def logT1 : RLog :=
  { address := List.replicate 20 0xAA,
    topics := [transferSig, padAddr 1, padAddr 2],
    data := List.replicate 32 0 }

def logT2 : RLog :=
  { address := List.replicate 20 0xBB,
    topics := [transferSig, padAddr 3, padAddr 4],
    data := List.replicate 32 5 }

def txWit : Tx :=
  { hash := List.replicate 32 1, fromAddr := List.replicate 20 1,
    toAddr := some (List.replicate 20 2), value := 0, gas_price := none,
    gas_limit := 21000, nonce := 0, block_number := some 1, input := [],
    ty := 2, max_fee_per_gas := none, max_priority_fee_per_gas := none,
    transaction_index := some 0, access_list_len := none,
    blob_versioned_hashes := none }

def receiptTwoTransfers : Receipt :=
  { gas_used := 50000, effective_gas_price := 10, status := true,
    contract_address := none, logs := [logT1, logT2],
    blob_gas_used := none, blob_gas_price := none }

/-- Witness for C8 at the concrete mock transaction. -/
theorem two_transfer_logs_witness :
    (from_tx_and_receipt txWit (some receiptTwoTransfers)).logs.length = 2 ∧
    (from_tx_and_receipt txWit (some receiptTwoTransfers)).token_transfers.length = 2 := by
  have h := two_transfer_logs txWit receiptTwoTransfers logT1 logT2 rfl
    rfl (by decide) (by decide) rfl (by decide) (by decide)
  exact ⟨h.1, h.2.2.1⟩

/-- Counterexample for C6 as stated: this receipt was retrieved (gas_used
and status are populated from it) yet `contract_created` is absent,
because the receipt's `contract_address` is `None` — so `contract_created`
is not present *iff* a receipt was retrieved. -/
theorem contract_created_counterexample :
    (from_tx_and_receipt txWit (some receiptTwoTransfers)).contract_created = none ∧
    (from_tx_and_receipt txWit (some receiptTwoTransfers)).gas_used = some 50000 ∧
    (from_tx_and_receipt txWit (some receiptTwoTransfers)).status = some true :=
  ⟨rfl, rfl, rfl⟩

/-- Claim C10: a Transfer-shaped log (topic0 = Transfer hash, at least 3
topics) whose data payload is shorter than 32 bytes is neither dropped nor
an error: its amount decodes as zero, the three `DecodedParam` entries are
still produced, and a `TokenTransfer` with amount 0 is still emitted. -/
theorem short_data_transfer_log (tx : Tx) (r : Receipt) (l : RLog)
    (hlogs : r.logs = [l])
    (h0 : l.topics.head? = some transferSig) (h3 : 3 ≤ l.topics.length)
    (hd : l.data.length < 32) :
    (from_tx_and_receipt tx (some r)).logs.length = 1 ∧
    (from_tx_and_receipt tx (some r)).logs.map
        (fun dl => dl.decoded_params.map (fun p => p.name)) =
      [["from", "to", "value"]] ∧
    (from_tx_and_receipt tx (some r)).token_transfers =
      [{ token_address := fmtBytes l.address,
         fromAddr := "0x" ++ hex_encode ((l.topics.getD 1 []).drop 12),
         toAddr := "0x" ++ hex_encode ((l.topics.getD 2 []).drop 12),
         amount := 0, token_symbol := none, decimals := none }] ∧
    (from_tx_and_receipt tx (some r)).token_transfers.map (fun t => t.amount) =
      [0] := by
  have e := decodeOneLog_transfer l h0 h3
  rw [if_neg (by omega)] at e
  refine ⟨?_, ?_, ?_, ?_⟩ <;>
    simp [from_tx_and_receipt, hlogs, e]

/-- A Transfer-shaped log with a 2-byte data payload. -/
def logShortData : RLog :=
  { address := List.replicate 20 0xCC,
    topics := [transferSig, padAddr 5, padAddr 6],
    data := [1, 2] }

def receiptShortLog : Receipt :=
  { gas_used := 30000, effective_gas_price := 3, status := true,
    contract_address := none, logs := [logShortData],
    blob_gas_used := none, blob_gas_price := none }

/-- Witness for C10 at a concrete short-data log. -/
theorem short_data_transfer_log_witness :
    (from_tx_and_receipt txWit (some receiptShortLog)).token_transfers.map
        (fun t => t.amount) = [0] :=
  (short_data_transfer_log txWit receiptShortLog logShortData rfl rfl
    (by decide) (by decide)).2.2.2

/-! ## Round-trip of `format_u256_decimals` (C9)

The re-parse follows the claim's words: split the rendered string at the
decimal point, read both parts as decimal numbers, and scale the
fractional part as if right-padded with zeros to `decimals` digits. -/

/-- Read a digit-character list as a decimal number. -/
def parseDecimalChars (cs : List Char) : Nat :=
  cs.foldl (fun a c => 10 * a + (c.toNat - 48)) 0

/-- Value of a most-significant-first digit list. -/
def valMSB (ds : List Nat) : Nat :=
  ds.foldl (fun a d => 10 * a + d) 0

/-- Re-parse the whole and fractional parts of a rendered decimal:
`whole * 10 ^ decimals + frac * 10 ^ (decimals - frac_digit_count)`. -/
def reparse_u256_decimals (s : String) (decimals : Nat) : Nat :=
  parseDecimalChars (s.toList.takeWhile (fun c => c ≠ '.')) * 10 ^ decimals
    + parseDecimalChars ((s.toList.dropWhile (fun c => c ≠ '.')).drop 1)
      * 10 ^ (decimals - ((s.toList.dropWhile (fun c => c ≠ '.')).drop 1).length)

theorem decDigitsAux_lt_ten : ∀ fuel n, ∀ d ∈ decDigitsAux fuel n, d < 10 := by
  intro fuel
  induction fuel with
  | zero => intro n d hd; simp [decDigitsAux] at hd
  | succ f ih =>
    intro n d hd
    by_cases hn : n = 0
    · simp [decDigitsAux, hn] at hd
    · rw [decDigitsAux, if_neg hn] at hd
      rcases List.mem_cons.1 hd with h | h
      · subst h
        exact Nat.mod_lt _ (by norm_num)
      · exact ih _ d h

theorem decDigits_lt_ten (n : Nat) : ∀ d ∈ decDigits n, d < 10 := by
  intro d hd
  rw [decDigits, List.mem_reverse] at hd
  exact decDigitsAux_lt_ten n n d hd

theorem valMSB_decDigitsAux : ∀ fuel n, n ≤ fuel →
    (decDigitsAux fuel n).foldr (fun x y => 10 * y + x) 0 = n := by
  intro fuel
  induction fuel with
  | zero =>
    intro n h
    have : n = 0 := by omega
    subst this
    simp [decDigitsAux]
  | succ f ih =>
    intro n h
    by_cases hn : n = 0
    · simp [decDigitsAux, hn]
    · rw [decDigitsAux, if_neg hn]
      simp only [List.foldr_cons]
      have hlt : n / 10 < n := Nat.div_lt_self (Nat.pos_of_ne_zero hn) (by norm_num)
      rw [ih (n / 10) (by omega)]
      exact Nat.div_add_mod n 10

theorem valMSB_decDigits (n : Nat) : valMSB (decDigits n) = n := by
  rw [decDigits, valMSB, List.foldl_reverse]
  exact valMSB_decDigitsAux n n le_rfl

theorem decDigitsAux_length : ∀ fuel n k, n < 10 ^ k →
    (decDigitsAux fuel n).length ≤ k := by
  intro fuel
  induction fuel with
  | zero => intro n k _; simp [decDigitsAux]
  | succ f ih =>
    intro n k h
    by_cases hn : n = 0
    · simp [decDigitsAux, hn]
    · rw [decDigitsAux, if_neg hn]
      simp only [List.length_cons]
      rcases k with _ | k
      · rw [pow_zero] at h
        omega
      · have hdiv : n / 10 < 10 ^ k := by
          rw [Nat.div_lt_iff_lt_mul (by norm_num : (0 : Nat) < 10)]
          calc n < 10 ^ (k + 1) := h
          _ = 10 ^ k * 10 := by ring
        have := ih (n / 10) k hdiv
        omega

theorem decDigits_length (n k : Nat) (h : n < 10 ^ k) :
    (decDigits n).length ≤ k := by
  rw [decDigits, List.length_reverse]
  exact decDigitsAux_length n n k h

theorem valMSB_append_zeros : ∀ (k : Nat) (a : List Nat),
    valMSB (a ++ List.replicate k 0) = valMSB a * 10 ^ k := by
  intro k
  induction k with
  | zero => intro a; simp
  | succ k ih =>
    intro a
    have h1 : a ++ List.replicate (k + 1) 0 = (a ++ [0]) ++ List.replicate k 0 := by
      simp [List.replicate_succ]
    have h2 : valMSB (a ++ [0]) = 10 * valMSB a := by
      rw [valMSB, List.foldl_append]
      simp [valMSB]
    rw [h1, ih (a ++ [0]), h2]
    ring

theorem valMSB_leading_zeros : ∀ (k : Nat) (a : List Nat),
    valMSB (List.replicate k 0 ++ a) = valMSB a := by
  intro k
  induction k with
  | zero => intro a; simp
  | succ k ih =>
    intro a
    rw [List.replicate_succ, List.cons_append]
    have : valMSB (0 :: (List.replicate k 0 ++ a)) =
        valMSB (List.replicate k 0 ++ a) := by
      simp [valMSB]
    rw [this, ih]

theorem valMSB_replicate_zero (k : Nat) : valMSB (List.replicate k 0) = 0 := by
  have := valMSB_leading_zeros k []
  simpa using this

theorem trimZeros_decomp (l : List Nat) :
    l = trimZeros l ++ List.replicate (l.length - (trimZeros l).length) 0 := by
  have hsplit : l.reverse.takeWhile (fun d => d = 0)
      ++ l.reverse.dropWhile (fun d => d = 0) = l.reverse :=
    List.takeWhile_append_dropWhile _ _
  have hmem : ∀ b ∈ l.reverse.takeWhile (fun d => d = 0), b = 0 := by
    intro b hb
    have := List.mem_takeWhile_imp hb
    simpa using this
  have htake := List.eq_replicate_of_mem hmem
  have hlen : (trimZeros l).length = (l.reverse.dropWhile (fun d => d = 0)).length := by
    rw [trimZeros, List.length_reverse]
  have hlen2 : (l.reverse.takeWhile (fun d => d = 0)).length
      + (l.reverse.dropWhile (fun d => d = 0)).length = l.length := by
    rw [← List.length_append, hsplit, List.length_reverse]
  calc l = l.reverse.reverse := (List.reverse_reverse l).symm
  _ = (l.reverse.takeWhile (fun d => d = 0)
        ++ l.reverse.dropWhile (fun d => d = 0)).reverse := by rw [hsplit]
  _ = trimZeros l ++ (l.reverse.takeWhile (fun d => d = 0)).reverse := by
      rw [List.reverse_append, trimZeros]
  _ = trimZeros l ++ List.replicate (l.length - (trimZeros l).length) 0 := by
      have hj : (l.reverse.takeWhile (fun d => d = 0)).length
          = l.length - (trimZeros l).length := by omega
      rw [htake, hj, List.reverse_replicate]

theorem trimZeros_ne_nil (l : List Nat) (h : valMSB l ≠ 0) : trimZeros l ≠ [] := by
  intro he
  apply h
  have hdec := trimZeros_decomp l
  rw [he] at hdec
  simp at hdec
  rw [hdec]
  exact valMSB_replicate_zero _

theorem trimZeros_mem (l : List Nat) : ∀ d ∈ trimZeros l, d ∈ l := by
  intro d hd
  rw [trimZeros, List.mem_reverse] at hd
  have hsub := List.dropWhile_sublist (l := l.reverse) (fun x => decide (x = 0))
  exact List.mem_reverse.1 (hsub.subset hd)

theorem toNat_decDigitChar (d : Nat) (h : d < 10) : (decDigitChar d).toNat - 48 = d := by
  interval_cases d <;> decide

theorem decDigitChar_ne_dotChar (d : Nat) (h : d < 10) : decDigitChar d ≠ '.' := by
  interval_cases d <;> decide

theorem parse_map_digits : ∀ (ds : List Nat), (∀ d ∈ ds, d < 10) →
    parseDecimalChars (ds.map decDigitChar) = valMSB ds := by
  suffices h : ∀ (ds : List Nat) (a : Nat), (∀ d ∈ ds, d < 10) →
      (ds.map decDigitChar).foldl (fun a c => 10 * a + (c.toNat - 48)) a
        = ds.foldl (fun a d => 10 * a + d) a by
    intro ds hds
    exact h ds 0 hds
  intro ds
  induction ds with
  | nil => intro a _; rfl
  | cons x xs ih =>
    intro a h
    simp only [List.map_cons, List.foldl_cons]
    rw [toNat_decDigitChar x (h x (by simp))]
    exact ih _ (fun d hd => h d (by simp [hd]))

theorem parse_natToString (n : Nat) : parseDecimalChars (natToString n).toList = n := by
  by_cases hn : n = 0
  · subst hn
    decide
  · rw [natToString, if_neg hn]
    have hmk : (String.mk ((decDigits n).map decDigitChar)).toList
        = (decDigits n).map decDigitChar := rfl
    rw [hmk, parse_map_digits _ (decDigits_lt_ten n), valMSB_decDigits]

theorem natToString_no_dot (n : Nat) : ∀ c ∈ (natToString n).toList, c ≠ '.' := by
  intro c hc
  by_cases hn : n = 0
  · subst hn
    have : c = '0' := by simpa [natToString] using hc
    subst this
    decide
  · rw [natToString, if_neg hn] at hc
    obtain ⟨d, hd, rfl⟩ := List.mem_map.1 hc
    exact decDigitChar_ne_dotChar d (decDigits_lt_ten n d hd)

theorem takeWhile_dot_split : ∀ (a : List Char), (∀ c ∈ a, c ≠ '.') →
    ∀ b, (a ++ '.' :: b).takeWhile (fun c => c ≠ '.') = a ∧
         (a ++ '.' :: b).dropWhile (fun c => c ≠ '.') = '.' :: b := by
  intro a
  induction a with
  | nil =>
    intro _ b
    constructor <;> simp [List.takeWhile_cons, List.dropWhile_cons]
  | cons x xs ih =>
    intro h b
    have hx : x ≠ '.' := h x (by simp)
    have hx2 : (fun c => decide (c ≠ '.')) x = true := by simpa using hx
    have ihx := ih (fun c hc => h c (by simp [hc])) b
    refine ⟨?_, ?_⟩
    · rw [List.cons_append, List.takeWhile_cons, if_pos hx2, ihx.1]
    · rw [List.cons_append, List.dropWhile_cons, if_pos hx2, ihx.2]

theorem takeWhile_no_dot_all : ∀ (a : List Char), (∀ c ∈ a, c ≠ '.') →
    a.takeWhile (fun c => c ≠ '.') = a ∧
    a.dropWhile (fun c => c ≠ '.') = [] := by
  intro a
  induction a with
  | nil => intro _; constructor <;> rfl
  | cons x xs ih =>
    intro h
    have hx : x ≠ '.' := h x (by simp)
    have hx2 : (fun c => decide (c ≠ '.')) x = true := by simpa using hx
    have ihx := ih (fun c hc => h c (by simp [hc]))
    refine ⟨?_, ?_⟩
    · rw [List.takeWhile_cons, if_pos hx2, ihx.1]
    · rw [List.dropWhile_cons, if_pos hx2, ihx.2]

/-- Claim C9 (amended): for every value and every decimal count `d ≤ 77` —
so that `10 ^ d` fits in 256 bits and the source's `U256::pow` divisor
does not wrap — rendering with `format_u256_decimals` and re-parsing the
whole and fractional parts of the resulting string recovers the value
exactly: `whole * 10 ^ d + frac * 10 ^ (d - frac_digits) = v`
(trailing-zero trimming does not change the value).  From `d = 78` on the
wrapped divisor breaks the round-trip (see the counterexample). -/
theorem format_u256_roundtrip (v d : Nat) (hd : d ≤ 77) :
    reparse_u256_decimals (format_u256_decimals v d) d = v := by
  have hdiv : (10 : Nat) ^ d % 2 ^ 256 = 10 ^ d :=
    Nat.mod_eq_of_lt (lt_of_le_of_lt
      (Nat.pow_le_pow_right (by norm_num) hd)
      (by norm_num : (10 : Nat) ^ 77 < 2 ^ 256))
  by_cases hv : v = 0
  · subst hv
    rw [format_u256_decimals, if_pos rfl]
    show parseDecimalChars (['0'].takeWhile (fun c => c ≠ '.')) * 10 ^ d
      + parseDecimalChars ((['0'].dropWhile (fun c => c ≠ '.')).drop 1)
        * 10 ^ (d - ((['0'].dropWhile (fun c => c ≠ '.')).drop 1).length) = 0
    norm_num [List.takeWhile_cons, List.dropWhile_cons, parseDecimalChars]
    exact ⟨by decide, by decide⟩
  · rw [format_u256_decimals, if_neg hv]
    dsimp only
    rw [hdiv]
    by_cases hr : v % 10 ^ d = 0
    · rw [if_pos hr]
      obtain ⟨ht, hdrp⟩ := takeWhile_no_dot_all _ (natToString_no_dot (v / 10 ^ d))
      rw [reparse_u256_decimals, ht, hdrp, parse_natToString]
      simp only [List.drop_nil, List.length_nil]
      have hdm := Nat.div_add_mod v (10 ^ d)
      rw [hr, add_zero] at hdm
      simp [parseDecimalChars]
      rw [mul_comm]
      exact hdm
    · rw [if_neg hr]
      have hrem_lt : v % 10 ^ d < 10 ^ d := Nat.mod_lt v (pow_pos (by norm_num) d)
      have hfl : (decDigits (v % 10 ^ d)).length ≤ d := decDigits_length _ _ hrem_lt
      have hvp : valMSB (List.replicate (d - (decDigits (v % 10 ^ d)).length) 0
          ++ decDigits (v % 10 ^ d)) = v % 10 ^ d := by
        rw [valMSB_leading_zeros, valMSB_decDigits]
      have htrim_ne : trimZeros (List.replicate (d - (decDigits (v % 10 ^ d)).length) 0
          ++ decDigits (v % 10 ^ d)) ≠ [] :=
        trimZeros_ne_nil _ (by rw [hvp]; exact hr)
      rw [if_neg htrim_ne]
      set padded := List.replicate (d - (decDigits (v % 10 ^ d)).length) 0
        ++ decDigits (v % 10 ^ d) with hpad
      set trimmed := trimZeros padded with htrm
      have hs : (natToString (v / 10 ^ d) ++ "." ++ String.mk (trimmed.map decDigitChar)).toList
          = (natToString (v / 10 ^ d)).toList ++ '.' :: trimmed.map decDigitChar := by
        show (natToString (v / 10 ^ d) ++ "." ++ String.mk (trimmed.map decDigitChar)).data
          = (natToString (v / 10 ^ d)).data ++ '.' :: trimmed.map decDigitChar
        rw [String.data_append, String.data_append, List.append_assoc]
        rfl
      obtain ⟨ht, hdrp⟩ := takeWhile_dot_split _ (natToString_no_dot (v / 10 ^ d))
        (trimmed.map decDigitChar)
      rw [reparse_u256_decimals, hs, ht, hdrp]
      simp only [List.drop_succ_cons, List.drop_zero, List.length_map]
      rw [parse_natToString]
      have htrim_digits : ∀ x ∈ trimmed, x < 10 := by
        intro x hx
        have hxp := trimZeros_mem padded x hx
        rw [hpad] at hxp
        rcases List.mem_append.1 hxp with hmem | hmem
        · have := List.eq_of_mem_replicate hmem
          omega
        · exact decDigits_lt_ten _ x hmem
      rw [parse_map_digits trimmed htrim_digits]
      have hplen : padded.length = d := by
        rw [hpad, List.length_append, List.length_replicate]
        omega
      have hdec := trimZeros_decomp padded
      rw [← htrm] at hdec
      have hlen_le : trimmed.length ≤ d := by
        have hl := congrArg List.length hdec
        rw [hplen, List.length_append, List.length_replicate] at hl
        omega
      have hval : valMSB trimmed * 10 ^ (d - trimmed.length) = v % 10 ^ d := by
        have hv2 := congrArg valMSB hdec
        rw [valMSB_append_zeros, hplen, hvp] at hv2
        exact hv2.symm
      rw [hval]
      have hdm := Nat.div_add_mod v (10 ^ d)
      rw [mul_comm]
      exact hdm

/-- Counterexample for C9 as stated: at `decimals = 78` the source's 256-bit
divisor `10 ^ 78 mod 2 ^ 256` equals this `v` itself, so the rendering is
`"1"`, which re-parses to `10 ^ 78` — not `v`.  The unrestricted round-trip
fails in the program. -/
theorem format_wrap_counterexample :
    format_u256_decimals (10 ^ 78 % 2 ^ 256) 78 = "1" ∧
    reparse_u256_decimals (format_u256_decimals (10 ^ 78 % 2 ^ 256) 78) 78 ≠
      10 ^ 78 % 2 ^ 256 := by
  exact ⟨by decide, by decide⟩

/-- Witness for C9 at the concrete input `v = 1500000`, `d = 6`
(rendered `"1.5"`). -/
theorem format_u256_roundtrip_witness :
    reparse_u256_decimals (format_u256_decimals 1500000 6) 6 = 1500000 :=
  format_u256_roundtrip 1500000 6 (by decide)
